import Mathlib

/-!
# busyrds: the write-retry-and-reconnect loop

A shallow embedding of `main.go`.  The program is sequential and talks to four
outside parties: the configuration file, the database driver, the clock and the
random record generator.  Their answers are collected in an environment `Env`
(one answer per call, in call order, with no assumption on the answers); the
program itself is a state transformer over `State`, which holds the
package-level variables (`dbPool`, `config`, `delay`), the number of calls made
so far to each outside party, and the trace of observable actions (`Event`).

`log.Fatal`/`log.Fatalf` and a nil-pointer panic terminate the process; a
function that may do so returns an `Outcome`.  The endless `for` of
`generateDummyData` is iterated with a step bound; running out of steps is
`none`, and the theorems show that a bound of `max 1 MaxRetry` steps always
produces a result.

Go `int` values are modelled as `Int`; the only arithmetic on them that can
leave the 64-bit range, the products `time.Duration(n) * time.Second` and
`time.Duration(n) * time.Millisecond`, wraps around explicitly (`wrap64`).
`retryCount++` is only reached with `retryCount < MaxRetry` and cannot overflow.
-/

namespace BusyRDS

/-! ## Data model -/

/-- Identity of a `*sql.DB` value: the number of the `connectDB` call that created it. -/
abbrev Handle := Nat

/-- A clock reading in nanoseconds on the monotonic clock of the process.  The
difference of two readings is taken to fit a `Duration` (about 292 years). -/
abbrev Time := Int

/-- A `time.Duration`: a signed 64-bit count of nanoseconds. -/
abbrev Duration := Int

/-- The `Config` struct (`int` fields are Go machine integers). -/
structure Config where
  DSN : String
  TestRun : Int
  RPS : Int
  MaxRetry : Int
  DelayRetry : Int
deriving DecidableEq, Repr, Inhabited

/-- What `loadConfig("config.json")` can run into. -/
inductive LoadResult where
  | openError (err : String)
  | readError (err : String)
  | unmarshalled (cfg : Config) (err : Option String)
deriving DecidableEq, Repr

/-- What one call of `connectDB` can run into. -/
inductive ConnectResult where
  | openError (err : String)
  | pingError (err : String)
  | ok
deriving DecidableEq, Repr

/-- Answers of the outside world, one per call, in call order. -/
structure Env where
  /-- The result of reading and decoding `config.json` -/
  configFile : LoadResult
  /-- The result of the n-th `connectDB` call -/
  connect : Nat → ConnectResult
  /-- The error text of the n-th `Exec` call, `none` for a nil error -/
  exec : Nat → Option String
  /-- The n-th clock reading -/
  now : Nat → Time
  /-- The n-th value of `faker.Email()` -/
  email : Nat → String

/-- Observable actions, in program order. -/
inductive Event where
  /-- The line of `log.Printf("Config : %+v", config)` -/
  | logConfig (cfg : Config)
  /-- The call `log.Fatal(err)` in `init`, `connectDB` or `createTableIfNotExists` -/
  | logFatal (err : String)
  /-- The call `sql.Open("postgres", dsn)` and the handle it returned, if any -/
  | sqlOpen (dsn : String) (h : Option Handle)
  /-- The call `dbPool.Ping()` -/
  | ping (h : Handle)
  /-- The call `dbPool.Close()` -/
  | close (h : Handle)
  /-- The call `dbPool.Exec(stmt, args...)` -/
  | exec (h : Handle) (stmt : String) (args : List String)
  /-- The line of `fmt.Println(line)` -/
  | println (line : String)
  /-- The line of `fmt.Println("Usecase:", n)` -/
  | printUsecase (n : Int)
  /-- The line of `log.Println(line)` -/
  | logPrintln (line : String)
  /-- The line of `log.Printf("Start Write Data Simulation at %d RPS", rps)` -/
  | logStartSimulation (rps : Int)
  /-- The line of `log.Println("Start time: ", t)` -/
  | logStartTime (t : Time)
  /-- The line of `log.Printf("End time: %v \n", t)` -/
  | logEndTime (t : Time)
  /-- The line of `log.Printf("Duration: %s\n", d)` -/
  | logDuration (d : Duration)
  /-- The line of `log.Printf("Failed to insert: %s. Error: [%v]. Retrying (%d/%d)...\n", ...)` -/
  | logRetrying (data err : String) (retryCount maxRetry : Int)
  /-- The call `log.Fatalf("Failed to insert data: %s. Error: [%v]\n", data, err)` -/
  | fatalInsert (data err : String)
  /-- The line of `log.Printf("DownTime: %dms\n", downTime)` -/
  | logDownTime (ms : Int)
  /-- The line of `log.Printf("Insert: %s success\n", data)` -/
  | logInsertSuccess (data : String)
  /-- The call `time.Sleep(d)` -/
  | sleep (d : Duration)
  /-- A method call on the nil `dbPool` -/
  | nilPanic
  /-- The exit of `flag.Parse()` with status 2 on a `-usecase` value that is
  not a Go `int` -/
  | flagExit (n : Int)
deriving DecidableEq, Repr

/-- Package-level variables, call counters and the trace. -/
structure State where
  /-- The variable `var dbPool *sql.DB` -/
  dbPool : Option Handle
  /-- The variable `var config Config` -/
  config : Config
  /-- The variable `var delay float64`, kept as the exact quotient (for `RPS = 0` Go stores
  an infinity, which has no counterpart here; see `truncate`) -/
  delay : ℚ
  /-- Number of `connectDB` calls so far -/
  connects : Nat
  /-- Number of `dbPool.Exec` calls so far -/
  execs : Nat
  /-- Number of clock readings so far -/
  clockReads : Nat
  /-- Number of `faker.Email()` calls so far -/
  emails : Nat
  /-- Everything the process has done so far -/
  trace : List Event

/-- How a function returns: normally, or the process has been terminated. -/
inductive Outcome where
  | ok (s : State)
  | abort (s : State)

/-- The state an outcome carries. -/
def Outcome.state : Outcome → State
  | .ok s => s
  | .abort s => s

/-- Whether the process was terminated. -/
def Outcome.aborted : Outcome → Bool
  | .ok _ => false
  | .abort _ => true

/-! ## Machine arithmetic and time -/

/-- Two-complement wrap-around of a 64-bit signed integer operation. -/
def wrap64 (x : Int) : Int := (x + 2 ^ 63) % 2 ^ 64 - 2 ^ 63

/-- The product `time.Duration(n) * time.Second` -/
def secondsDuration (n : Int) : Duration := wrap64 (n * 1000000000)

/-- The product `time.Duration(n) * time.Millisecond` -/
def millisDuration (n : Int) : Duration := wrap64 (n * 1000000)

/-- The method `d.Milliseconds()`: integer division, truncating toward zero. -/
def milliseconds (d : Duration) : Int := Int.tdiv d 1000000

/-- The conversion `time.Duration(x)` of a float: the fraction is discarded.
For `x = 1000 / float64(rps)` with `rps ≠ 0` the rounding of the float quotient
never crosses an integer (a quotient that is not a whole number is at least
`1 / 1000` away from the next one when `|rps| ≤ 1000`, and below 1 in absolute
value otherwise), so truncating the exact quotient gives the same integer.
For `rps = 0` the float is an infinity and Go leaves the conversion
implementation-defined; no theorem below relies on that case. -/
def truncate (x : ℚ) : Int := Int.tdiv x.num x.den

/-! ## The program -/

/-- The statement text of `generateDummyData`. -/
def insertStmt : String := "INSERT INTO busy_table (description, status) VALUES ($1, $2)"

/-- The statement text of `createTableIfNotExists`. -/
def createTableStmt : String := "CREATE TABLE IF NOT EXISTS busy_table(
		id SERIAL PRIMARY KEY,
		description VARCHAR(255),
		status VARCHAR(50),
		time TIMESTAMP WITH TIME ZONE DEFAULT CURRENT_TIMESTAMP
	);"

/-- The error text compared against in `generateDummyData`. -/
def readOnlyError : String := "pq: cannot execute INSERT in a read-only transaction"

/-- Append one action to the trace. -/
def State.emit (s : State) (e : Event) : State :=
  { s with trace := s.trace ++ [e] }

/-- The function `connectDB`: open, then ping; either failure is fatal. -/
def connectDB (env : Env) (s : State) : Outcome :=
  let h : Handle := s.connects
  match env.connect s.connects with
  | .openError err =>
    .abort (({ s with dbPool := none, connects := s.connects + 1 }.emit
      (.sqlOpen s.config.DSN none)).emit (.logFatal err))
  | .pingError err =>
    .abort ((({ s with dbPool := some h, connects := s.connects + 1 }.emit
      (.sqlOpen s.config.DSN (some h))).emit (.ping h)).emit (.logFatal err))
  | .ok =>
    .ok (({ s with dbPool := some h, connects := s.connects + 1 }.emit
      (.sqlOpen s.config.DSN (some h))).emit (.ping h))

/-- The zero value of `Config`. -/
def Config.zero : Config :=
  { DSN := "", TestRun := 0, RPS := 0, MaxRetry := 0, DelayRetry := 0 }

/-- The function `loadConfig`: the configuration, the error, and the log line
written once the file has been read. -/
def loadConfig (env : Env) (s : State) : Config × Option String × State :=
  match env.configFile with
  | .openError err => (Config.zero, some err, s)
  | .readError err => (Config.zero, some err, s)
  | .unmarshalled cfg err => (cfg, err, s.emit (.logConfig cfg))

/-- The function `init`, run before `main`. -/
def init (env : Env) (s : State) : Outcome :=
  match loadConfig env s with
  | (cfg, some err, s1) => .abort ({ s1 with config := cfg }.emit (.logFatal err))
  | (cfg, none, s1) =>
    let s2 := { s1 with config := cfg, delay := 1000 / (cfg.RPS : ℚ) }
    match connectDB env s2 with
    | .abort s3 => .abort s3
    | .ok s3 => .ok (s3.emit (.println "Successfully connected to the database"))

/-- How one pass through the body of the `for` in `generateDummyData` ends. -/
inductive Step where
  /-- Back to the top of the loop with the updated locals -/
  | next (retryCount : Int) (lastError : Time) (s : State)
  /-- The `break`: the loop is left -/
  | done (s : State)
  /-- The process has been terminated -/
  | abort (s : State)

/-- The state a pass ends in. -/
def Step.state : Step → State
  | .next _ _ s => s
  | .done s => s
  | .abort s => s

/-- One pass through the body of the `for` in `generateDummyData`.
The assignment `retryCount = 1` before the `break` writes a local that is not
read again. -/
def loopBody (env : Env) (data : String) (retryCount : Int) (lastError : Time)
    (s : State) : Step :=
  match s.dbPool with
  | none => .abort (s.emit .nilPanic)
  | some h =>
    let s1 := { s with execs := s.execs + 1 }.emit (.exec h insertStmt [data, "idle"])
    match env.exec s.execs with
    | some err =>
      let lastError1 : Time := if retryCount = 1 then env.now s1.clockReads else lastError
      let s2 : State :=
        if retryCount = 1 then { s1 with clockReads := s1.clockReads + 1 } else s1
      if retryCount ≥ s2.config.MaxRetry then
        .abort (s2.emit (.fatalInsert data err))
      else
        let s3 := s2.emit (.logRetrying data err retryCount s2.config.MaxRetry)
        let r : Outcome :=
          if err = readOnlyError then
            connectDB env { s3.emit (.close h) with dbPool := none }
          else .ok s3
        match r with
        | .abort s4 => .abort s4
        | .ok s4 =>
          .next (retryCount + 1) lastError1
            (s4.emit (.sleep (secondsDuration s4.config.DelayRetry)))
    | none =>
      let s2 : State :=
        if retryCount > 1 then
          { s1 with clockReads := s1.clockReads + 1 }.emit
            (.logDownTime (milliseconds (env.now s1.clockReads - lastError)))
        else s1
      .done (s2.emit (.logInsertSuccess data))

/-- The `for` of `generateDummyData`, at most `fuel` passes. -/
def retryLoop (env : Env) (data : String) :
    Nat → Int → Time → State → Option Outcome
  | 0, _, _, _ => none
  | fuel + 1, retryCount, lastError, s =>
    match loopBody env data retryCount lastError s with
    | .next retryCount1 lastError1 s1 => retryLoop env data fuel retryCount1 lastError1 s1
    | .done s1 => some (.ok s1)
    | .abort s1 => some (.abort s1)

/-- The function `generateDummyData`: one logical write. -/
def generateDummyData (env : Env) (fuel : Nat) (s : State) : Option Outcome :=
  let data := env.email s.emails
  let s1 := { s with emails := s.emails + 1 }
  let lastError := env.now s1.clockReads
  let s2 := { s1 with clockReads := s1.clockReads + 1 }
  retryLoop env data fuel 1 lastError s2

/-- A counting `for i := 0; i < n; i++` whose body may terminate the process. -/
def forLoop (body : State → Option Outcome) : Nat → State → Option Outcome
  | 0, s => some (.ok s)
  | n + 1, s =>
    match body s with
    | none => none
    | some (.abort s1) => some (.abort s1)
    | some (.ok s1) => forLoop body n s1

/-- The statements after the loop in `dataGenerator` and `failoverSimulator`. -/
def reportEnd (env : Env) (startTime : Time) (s : State) : State :=
  let duration : Duration := env.now s.clockReads - startTime
  let s1 := { s with clockReads := s.clockReads + 1 }
  let s2 := { s1 with clockReads := s1.clockReads + 1 }.emit (.logEndTime (env.now s1.clockReads))
  s2.emit (.logDuration duration)

/-- The function `dataGenerator` (burst mode). -/
def dataGenerator (env : Env) (fuel : Nat) (s : State) : Option Outcome :=
  let s1 := (s.emit (.logPrintln "==============")).emit (.logPrintln "Start Dummy Data Generator")
  let startTime := env.now s1.clockReads
  let s2 := { s1 with clockReads := s1.clockReads + 1 }.emit (.logStartTime startTime)
  match forLoop (generateDummyData env fuel) s2.config.TestRun.toNat s2 with
  | none => none
  | some (.abort s3) => some (.abort s3)
  | some (.ok s3) => some (.ok (reportEnd env startTime s3))

/-- The body of the `for` in `failoverSimulator`: one write, then the pause. -/
def pacedWrite (env : Env) (fuel : Nat) (s : State) : Option Outcome :=
  match generateDummyData env fuel s with
  | none => none
  | some (.abort s1) => some (.abort s1)
  | some (.ok s1) => some (.ok (s1.emit (.sleep (millisDuration (truncate s1.delay)))))

/-- The function `failoverSimulator` (rate-limited mode). -/
def failoverSimulator (env : Env) (fuel : Nat) (s : State) : Option Outcome :=
  let s1 := (s.emit (.logPrintln "==============")).emit (.logStartSimulation s.config.RPS)
  let startTime := env.now s1.clockReads
  let s2 := { s1 with clockReads := s1.clockReads + 1 }.emit (.logStartTime startTime)
  match forLoop (pacedWrite env fuel) s2.config.TestRun.toNat s2 with
  | none => none
  | some (.abort s3) => some (.abort s3)
  | some (.ok s3) => some (.ok (reportEnd env startTime s3))

/-- The function `createTableIfNotExists`, called on `dbPool`. -/
def createTableIfNotExists (env : Env) (s : State) : Outcome :=
  match s.dbPool with
  | none => .abort (s.emit .nilPanic)
  | some h =>
    let s1 := { s with execs := s.execs + 1 }.emit (.exec h createTableStmt [])
    match env.exec s.execs with
    | some err => .abort (s1.emit (.logFatal err))
    | none => .ok (s1.emit (.logPrintln "Table busy is ready"))

/-- The function `dbInitialization`. -/
def dbInitialization (env : Env) (s : State) : Outcome :=
  createTableIfNotExists env s

/-- Whether an integer is a Go `int` (64 bits). -/
def isGoInt (n : Int) : Bool := decide (-(2 ^ 63) ≤ n) && decide (n < 2 ^ 63)

/-- The function `main`.  The argument is the integer written after `-usecase`
on the command line (0 when the flag is absent).  `flag.Int` with `flag.Parse()`
accepts it only when it is a Go `int`; otherwise `flag.Parse()` reports the
error and exits with status 2 before anything is printed.  Command lines that
`flag.Parse()` refuses for another reason (an unknown flag, a value that is not
an integer) are outside this model. -/
def main (env : Env) (fuel : Nat) (usecase : Int) (s : State) : Option Outcome :=
  if isGoInt usecase = false then
    some (.abort (s.emit (.flagExit usecase)))
  else
    let s1 := s.emit (.printUsecase usecase)
    if usecase = 1 then
      dataGenerator env fuel (s1.emit (.logPrintln "Dummy Data Generator"))
    else if usecase = 2 then
      failoverSimulator env fuel (s1.emit (.logPrintln "RDS Failover Simulator"))
    else if usecase = 99 then
      some (dbInitialization env (s1.emit (.logPrintln "Create Table")))
    else
      some (.ok (s1.emit (.println "Unknown usecase selected.")))

/-- The state of a fresh process: zero-valued package variables, nothing done. -/
def State.initial : State :=
  { dbPool := none, config := Config.zero, delay := 0, connects := 0, execs := 0,
    clockReads := 0, emails := 0, trace := [] }

/-- A run of the whole program: `init`, then `main`. -/
def program (env : Env) (fuel : Nat) (usecase : Int) : Option Outcome :=
  match init env State.initial with
  | .abort s => some (.abort s)
  | .ok s => main env fuel usecase s

/-! ## Measures on traces -/

/-- A write attempt: an `Exec` call. -/
def Event.isExec : Event → Bool
  | .exec _ _ _ => true
  | _ => false

/-- A "Retrying" log line. -/
def Event.isRetrying : Event → Bool
  | .logRetrying _ _ _ _ => true
  | _ => false

/-- A "DownTime" log line. -/
def Event.isDownTime : Event → Bool
  | .logDownTime _ => true
  | _ => false

/-- A fatal log line or a panic: the process ends here. -/
def Event.isFatal : Event → Bool
  | .logFatal _ => true
  | .fatalInsert _ _ => true
  | .nilPanic => true
  | .flagExit _ => true
  | _ => false

/-- An action on the database connection: open, ping, close or exec. -/
def Event.isDatabase : Event → Bool
  | .sqlOpen _ _ => true
  | .ping _ => true
  | .close _ => true
  | .exec _ _ _ => true
  | _ => false

/-- A connection reset action: close, open or ping. -/
def Event.isReset : Event → Bool
  | .sqlOpen _ _ => true
  | .ping _ => true
  | .close _ => true
  | _ => false

/-- An "Insert ... success" log line. -/
def Event.isInsertSuccess : Event → Bool
  | .logInsertSuccess _ => true
  | _ => false

/-- The duration of a sleep. -/
def Event.sleepOf : Event → Option Duration
  | .sleep d => some d
  | _ => none

/-- The value of a "DownTime" log line. -/
def Event.downTimeOf : Event → Option Int
  | .logDownTime ms => some ms
  | _ => none

/-- Number of write attempts in a trace. -/
def attempts (t : List Event) : Nat := t.countP Event.isExec

/-- Number of "Retrying" lines in a trace. -/
def retryingLines (t : List Event) : Nat := t.countP Event.isRetrying

/-- The sleeps of a trace, in order. -/
def sleeps (t : List Event) : List Duration := t.filterMap Event.sleepOf

/-- The reported downtimes of a trace, in order. -/
def downTimes (t : List Event) : List Int := t.filterMap Event.downTimeOf

/-- Number of process terminations in a trace. -/
def fatals (t : List Event) : Nat := t.countP Event.isFatal

/-- The trace of one completed logical write of the record `data`: every attempt
is the single-row insert of `data` with status "idle", there is at least one
attempt, and the only success line is the last action. -/
def IsWriteOf (data : String) (seg : List Event) : Prop :=
  (∀ e ∈ seg, e.isExec = true → ∃ h, e = .exec h insertStmt [data, "idle"]) ∧
  1 ≤ attempts seg ∧
  seg.countP Event.isInsertSuccess = 1 ∧
  seg.getLast? = some (.logInsertSuccess data)

/-- The trace of a logical write of the record `data` that ended with the
process being terminated: every attempt is the single-row insert of `data` with
status "idle", there is no success line, and the one fatal action is the last. -/
def IsAbortedWriteOf (data : String) (frag : List Event) : Prop :=
  (∀ e ∈ frag, e.isExec = true → ∃ h, e = .exec h insertStmt [data, "idle"]) ∧
  frag.countP Event.isInsertSuccess = 0 ∧
  fatals frag = 1 ∧
  ∃ e, frag.getLast? = some e ∧ e.isFatal = true

/-! ## Concrete inputs -/

/-- A configuration: five records at 10 records per second, three tries, one second apart. -/
def sampleConfig : Config :=
  { DSN := "postgres://busy", TestRun := 5, RPS := 10, MaxRetry := 3, DelayRetry := 1 }

/-- A configuration asking for two records at 2000 records per second. -/
def overdrivenConfig : Config :=
  { DSN := "postgres://busy", TestRun := 2, RPS := 2000, MaxRetry := 3, DelayRetry := 1 }

/-- A configuration asking for no records at all. -/
def emptyRunConfig : Config :=
  { DSN := "postgres://busy", TestRun := 0, RPS := 10, MaxRetry := 3, DelayRetry := 1 }

/-- A configuration that allows a single try per record. -/
def singleTryConfig : Config :=
  { DSN := "postgres://busy", TestRun := 5, RPS := 10, MaxRetry := 1, DelayRetry := 1 }

/-- A configuration whose retry delay in seconds does not fit a `Duration`. -/
def longDelayConfig : Config :=
  { DSN := "postgres://busy", TestRun := 5, RPS := 10, MaxRetry := 3, DelayRetry := 9223372037 }

/-- A healthy world: the configuration loads, every connection and every write
succeeds, the clock advances one millisecond per reading. -/
def healthyEnv (cfg : Config) : Env where
  configFile := .unmarshalled cfg none
  connect := fun _ => .ok
  exec := fun _ => none
  now := fun n => 1000000 * n
  email := fun n => String.join ["user", toString n, "@example.com"]

/-- A world whose database does not answer the ping. -/
def unreachableEnv (cfg : Config) : Env where
  configFile := .unmarshalled cfg none
  connect := fun _ => .pingError "dial tcp: connection refused"
  exec := fun _ => none
  now := fun n => 1000000 * n
  email := fun n => String.join ["user", toString n, "@example.com"]

/-- A world in which the first `k` writes are rejected with the error `err`
and every later one succeeds. -/
def flakyEnv (cfg : Config) (k : Nat) (err : String) : Env where
  configFile := .unmarshalled cfg none
  connect := fun _ => .ok
  exec := fun n => if n < k then some err else none
  now := fun n => 1000000 * n
  email := fun n => String.join ["user", toString n, "@example.com"]

/-- The state `init` leaves behind in a world where the configuration loads and
the first connection succeeds. -/
def connectedState (cfg : Config) : State :=
  { dbPool := some 0, config := cfg, delay := 1000 / (cfg.RPS : ℚ), connects := 1, execs := 0,
    clockReads := 0, emails := 0,
    trace := [.logConfig cfg, .sqlOpen cfg.DSN (some 0), .ping 0,
      .println "Successfully connected to the database"] }

/-! ## One pass through the loop body -/

@[simp]
theorem emit_trace (s : State) (e : Event) : (s.emit e).trace = s.trace ++ [e] := rfl
@[simp]
theorem emit_dbPool (s : State) (e : Event) : (s.emit e).dbPool = s.dbPool := rfl
@[simp]
theorem emit_config (s : State) (e : Event) : (s.emit e).config = s.config := rfl
@[simp]
theorem emit_delay (s : State) (e : Event) : (s.emit e).delay = s.delay := rfl
@[simp]
theorem emit_connects (s : State) (e : Event) : (s.emit e).connects = s.connects := rfl
@[simp]
theorem emit_execs (s : State) (e : Event) : (s.emit e).execs = s.execs := rfl
@[simp]
theorem emit_clockReads (s : State) (e : Event) : (s.emit e).clockReads = s.clockReads := rfl
@[simp]
theorem emit_emails (s : State) (e : Event) : (s.emit e).emails = s.emails := rfl

/-- What a successful `connectDB` leaves behind. -/
theorem connectDB_ok {env : Env} {s s1 : State} (h : connectDB env s = .ok s1) :
    env.connect s.connects = .ok ∧ s1.dbPool = some s.connects ∧
    s1.connects = s.connects + 1 ∧ s1.config = s.config ∧ s1.delay = s.delay ∧
    s1.execs = s.execs ∧ s1.clockReads = s.clockReads ∧ s1.emails = s.emails ∧
    s1.trace = s.trace ++ [.sqlOpen s.config.DSN (some s.connects), .ping s.connects] := by
  unfold connectDB at h
  split at h <;> simp at h
  subst h
  simp [*]

/-- What a failed `connectDB` leaves behind. -/
theorem connectDB_abort {env : Env} {s s1 : State} (h : connectDB env s = .abort s1) :
    env.connect s.connects ≠ .ok ∧ s1.config = s.config ∧ s1.delay = s.delay ∧
    s1.execs = s.execs ∧ s1.clockReads = s.clockReads ∧ s1.emails = s.emails ∧
    ∃ err, s1.trace = s.trace ++ [.sqlOpen s.config.DSN none, .logFatal err] ∨
      s1.trace = s.trace ++
        [.sqlOpen s.config.DSN (some s.connects), .ping s.connects, .logFatal err] := by
  unfold connectDB at h
  split at h <;> simp at h
  all_goals subst h; simp [*]

/-- A pass that loops back: one failed attempt under the retry budget. -/
theorem loopBody_next {env : Env} {data : String} {rc rc1 : Int} {le le1 : Time}
    {s s1 : State} (h : loopBody env data rc le s = .next rc1 le1 s1) :
    rc1 = rc + 1 ∧ rc < s.config.MaxRetry ∧
    le1 = (if rc = 1 then env.now s.clockReads else le) ∧
    s1.clockReads = s.clockReads + (if rc = 1 then 1 else 0) ∧
    s1.config = s.config ∧ s1.delay = s.delay ∧ s1.emails = s.emails ∧
    s1.execs = s.execs + 1 ∧
    ∃ hd err, s.dbPool = some hd ∧ env.exec s.execs = some err ∧
      ((err ≠ readOnlyError ∧ s1.dbPool = some hd ∧ s1.connects = s.connects ∧
          s1.trace = s.trace ++ [.exec hd insertStmt [data, "idle"],
            .logRetrying data err rc s.config.MaxRetry,
            .sleep (secondsDuration s.config.DelayRetry)]) ∨
       (err = readOnlyError ∧ env.connect s.connects = .ok ∧
          s1.dbPool = some s.connects ∧ s1.connects = s.connects + 1 ∧
          s1.trace = s.trace ++ [.exec hd insertStmt [data, "idle"],
            .logRetrying data err rc s.config.MaxRetry,
            .close hd, .sqlOpen s.config.DSN (some s.connects), .ping s.connects,
            .sleep (secondsDuration s.config.DelayRetry)])) := by
  cases hdb : s.dbPool with
  | none => simp [loopBody, hdb] at h
  | some hd =>
    cases herr : env.exec s.execs with
    | none => simp [loopBody, hdb, herr] at h
    | some err =>
      by_cases hmax : s.config.MaxRetry ≤ rc
      · rcases eq_or_ne rc 1 with rfl | hrc <;> simp [loopBody, hdb, herr, hmax, *] at h
      · by_cases hro : err = readOnlyError
        · cases hc : env.connect s.connects <;>
            rcases eq_or_ne rc 1 with rfl | hrc <;>
            simp [loopBody, connectDB, hdb, herr, hmax, hro, hc, *] at h
          all_goals
            obtain ⟨h1, h2, h3⟩ := h
            subst h1 h2 h3
            simp_all [State.emit]
        · rcases eq_or_ne rc 1 with rfl | hrc <;>
            simp [loopBody, connectDB, hdb, herr, hmax, hro, *] at h
          all_goals
            obtain ⟨h1, h2, h3⟩ := h
            subst h1 h2 h3
            simp_all [State.emit]

/-- A pass that ends the loop: the attempt succeeded. -/
theorem loopBody_done {env : Env} {data : String} {rc : Int} {le : Time}
    {s s1 : State} (h : loopBody env data rc le s = .done s1) :
    env.exec s.execs = none ∧
    s1.clockReads = s.clockReads + (if rc > 1 then 1 else 0) ∧
    s1.config = s.config ∧ s1.delay = s.delay ∧ s1.emails = s.emails ∧
    s1.execs = s.execs + 1 ∧ s1.dbPool = s.dbPool ∧ s1.connects = s.connects ∧
    ∃ hd, s.dbPool = some hd ∧
      s1.trace = s.trace ++ (.exec hd insertStmt [data, "idle"] ::
        ((if rc > 1 then [.logDownTime (milliseconds (env.now s.clockReads - le))] else []) ++
          [.logInsertSuccess data])) := by
  cases hdb : s.dbPool with
  | none => simp [loopBody, hdb] at h
  | some hd =>
    cases herr : env.exec s.execs with
    | none =>
      by_cases hrc : rc > 1 <;> simp [loopBody, hdb, herr, *] at h <;> subst h <;>
        simp_all [State.emit]
    | some err =>
      by_cases hmax : s.config.MaxRetry ≤ rc
      · rcases eq_or_ne rc 1 with rfl | hrc <;> simp [loopBody, hdb, herr, hmax, *] at h
      · by_cases hro : err = readOnlyError
        · cases hc : env.connect s.connects <;>
            rcases eq_or_ne rc 1 with rfl | hrc <;>
            simp [loopBody, connectDB, hdb, herr, hmax, hro, hc, *] at h
        · rcases eq_or_ne rc 1 with rfl | hrc <;>
            simp [loopBody, connectDB, hdb, herr, hmax, hro, *] at h

/-- A pass that terminates the process: a nil pool, an exhausted retry budget,
or a reconnection that failed. -/
theorem loopBody_abort {env : Env} {data : String} {rc : Int} {le : Time}
    {s s1 : State} (h : loopBody env data rc le s = .abort s1) :
    s1.config = s.config ∧ s1.delay = s.delay ∧ s1.emails = s.emails ∧
    ((s.dbPool = none ∧ s1.execs = s.execs ∧ s1.trace = s.trace ++ [.nilPanic]) ∨
     (∃ hd err, s.dbPool = some hd ∧ env.exec s.execs = some err ∧
        s.config.MaxRetry ≤ rc ∧ s1.execs = s.execs + 1 ∧
        s1.trace = s.trace ++ [.exec hd insertStmt [data, "idle"], .fatalInsert data err]) ∨
     (∃ hd tl, s.dbPool = some hd ∧ env.exec s.execs = some readOnlyError ∧
        rc < s.config.MaxRetry ∧ env.connect s.connects ≠ .ok ∧ s1.execs = s.execs + 1 ∧
        s1.trace = s.trace ++ ([.exec hd insertStmt [data, "idle"],
          .logRetrying data readOnlyError rc s.config.MaxRetry, .close hd] ++ tl) ∧
        ∀ e ∈ tl, e.isExec = false ∧ e.isDownTime = false ∧ e.sleepOf = none ∧
          e.isRetrying = false ∧ e.isInsertSuccess = false)) := by
  cases hdb : s.dbPool with
  | none =>
    simp [loopBody, hdb] at h
    subst h
    simp [hdb]
  | some hd =>
    cases herr : env.exec s.execs with
    | none =>
      by_cases hrc : rc > 1 <;> simp [loopBody, hdb, herr, *] at h
    | some err =>
      by_cases hmax : s.config.MaxRetry ≤ rc
      · rcases eq_or_ne rc 1 with rfl | hrc <;> simp [loopBody, hdb, herr, hmax, *] at h <;>
          subst h <;> simp_all [State.emit]
      · by_cases hro : err = readOnlyError
        · cases hc : env.connect s.connects <;>
            rcases eq_or_ne rc 1 with rfl | hrc <;>
            simp [loopBody, connectDB, hdb, herr, hmax, hro, hc, *] at h
          all_goals
            subst h
            simp_all [State.emit, Event.isExec, Event.isDownTime, Event.sleepOf,
              Event.isRetrying, Event.isInsertSuccess]
        · rcases eq_or_ne rc 1 with rfl | hrc <;>
            simp [loopBody, connectDB, hdb, herr, hmax, hro, *] at h

@[simp]
theorem attempts_nil : attempts [] = 0 := rfl
@[simp]
theorem attempts_append (a b : List Event) :
    attempts (a ++ b) = attempts a + attempts b := by simp [attempts]
@[simp]
theorem retryingLines_nil : retryingLines [] = 0 := rfl
@[simp]
theorem retryingLines_append (a b : List Event) :
    retryingLines (a ++ b) = retryingLines a + retryingLines b := by simp [retryingLines]
@[simp]
theorem fatals_nil : fatals [] = 0 := rfl
@[simp]
theorem fatals_append (a b : List Event) :
    fatals (a ++ b) = fatals a + fatals b := by simp [fatals]
@[simp]
theorem sleeps_nil : sleeps [] = [] := rfl
@[simp]
theorem sleeps_append (a b : List Event) :
    sleeps (a ++ b) = sleeps a ++ sleeps b := by simp [sleeps]
@[simp]
theorem downTimes_nil : downTimes [] = [] := rfl
@[simp]
theorem downTimes_append (a b : List Event) :
    downTimes (a ++ b) = downTimes a ++ downTimes b := by simp [downTimes]

/-- A failed attempt under the budget loops back, provided a reset reconnects. -/
theorem loopBody_retries (env : Env) (data : String) (rc : Int) (le : Time) (s : State)
    (hd : Handle) (err : String) (hpool : s.dbPool = some hd)
    (herr : env.exec s.execs = some err) (hbudget : rc < s.config.MaxRetry)
    (hconn : err = readOnlyError → env.connect s.connects = .ok) :
    ∃ le1 s1, loopBody env data rc le s = .next (rc + 1) le1 s1 := by
  have hmax : ¬ s.config.MaxRetry ≤ rc := not_le.mpr hbudget
  by_cases hro : err = readOnlyError
  · have hc := hconn hro
    rcases eq_or_ne rc 1 with rfl | hrc <;>
      simp [loopBody, connectDB, hpool, herr, hmax, hro, hc, *]
  · rcases eq_or_ne rc 1 with rfl | hrc <;>
      simp [loopBody, hpool, herr, hmax, hro, *]

/-- A successful attempt ends the loop. -/
theorem loopBody_succeeds (env : Env) (data : String) (rc : Int) (le : Time) (s : State)
    (hd : Handle) (hpool : s.dbPool = some hd) (hok : env.exec s.execs = none) :
    ∃ s1, loopBody env data rc le s = .done s1 := by
  simp [loopBody, hpool, hok]

/-- A failed attempt with the budget used up terminates the process. -/
theorem loopBody_gives_up (env : Env) (data : String) (rc : Int) (le : Time) (s : State)
    (hd : Handle) (err : String) (hpool : s.dbPool = some hd)
    (herr : env.exec s.execs = some err) (hmax : s.config.MaxRetry ≤ rc) :
    ∃ s1, loopBody env data rc le s = .abort s1 := by
  rcases eq_or_ne rc 1 with rfl | hrc <;> simp [loopBody, hpool, herr, hmax, *]


/-! ## The retry loop -/

@[simp]
theorem retryLoop_zero (env : Env) (data : String) (rc : Int) (le : Time) (s : State) :
    retryLoop env data 0 rc le s = none := rfl

theorem retryLoop_next {env : Env} {data : String} {rc rc1 : Int} {le le1 : Time}
    {s s1 : State} (fuel : Nat) (h : loopBody env data rc le s = .next rc1 le1 s1) :
    retryLoop env data (fuel + 1) rc le s = retryLoop env data fuel rc1 le1 s1 := by
  simp [retryLoop, h]

theorem retryLoop_done {env : Env} {data : String} {rc : Int} {le : Time}
    {s s1 : State} (fuel : Nat) (h : loopBody env data rc le s = .done s1) :
    retryLoop env data (fuel + 1) rc le s = some (.ok s1) := by
  simp [retryLoop, h]

theorem retryLoop_abort {env : Env} {data : String} {rc : Int} {le : Time}
    {s s1 : State} (fuel : Nat) (h : loopBody env data rc le s = .abort s1) :
    retryLoop env data (fuel + 1) rc le s = some (.abort s1) := by
  simp [retryLoop, h]

/-- The loop, entered with `k` failing attempts ahead and then a successful one,
all failures under the budget: it ends normally, and this is what it did. -/
theorem retryLoop_recovers (env : Env) (data : String) (k : Nat) :
    ∀ (fuel : Nat) (rc : Int) (le : Time) (s : State) (hd : Handle),
      1 ≤ rc → (k = 0 ∨ rc + k ≤ s.config.MaxRetry) → s.dbPool = some hd →
      (∀ j, s.connects ≤ j → env.connect j = .ok) →
      (∀ i, i < k → env.exec (s.execs + i) ≠ none) → env.exec (s.execs + k) = none →
      k < fuel →
      ∃ s1 delta, retryLoop env data fuel rc le s = some (.ok s1) ∧
        s1.trace = s.trace ++ delta ∧ attempts delta = k + 1 ∧ retryingLines delta = k ∧
        sleeps delta = List.replicate k (secondsDuration s.config.DelayRetry) ∧
        fatals delta = 0 ∧
        downTimes delta = (if rc = 1 ∧ k = 0 then [] else
          [milliseconds (env.now (s.clockReads + (if rc = 1 then 1 else 0)) -
            (if rc = 1 then env.now s.clockReads else le))]) ∧
        s1.config = s.config ∧
        s1.clockReads = s.clockReads +
          (if rc = 1 ∧ k = 0 then 0 else if rc = 1 then 2 else 1) := by
  induction k with
  | zero =>
    intro fuel rc le s hd hrc _ hpool _ _ hsucc hfuel
    obtain ⟨f, rfl⟩ : ∃ f, fuel = f + 1 := ⟨fuel - 1, by omega⟩
    obtain ⟨s1, hstep⟩ := loopBody_succeeds env data rc le s hd hpool hsucc
    obtain ⟨-, hck, hcfg, -, -, -, -, -, hd1, hp1, htr⟩ := loopBody_done hstep
    refine ⟨s1, _, retryLoop_done f hstep, htr, ?_⟩
    rcases eq_or_ne rc 1 with rfl | hne
    · simp [attempts, retryingLines, sleeps, fatals, downTimes, Event.isExec,
        Event.isRetrying, Event.sleepOf, Event.isFatal, Event.downTimeOf, hcfg, hck]
    · have hgt : rc > 1 := by omega
      simp [attempts, retryingLines, sleeps, fatals, downTimes, Event.isExec,
        Event.isRetrying, Event.sleepOf, Event.isFatal, Event.downTimeOf, hcfg, hck,
        hgt, hne]
  | succ k ih =>
    intro fuel rc le s hd hrc hbud hpool hconn hfail hsucc hfuel
    obtain ⟨f, rfl⟩ : ∃ f, fuel = f + 1 := ⟨fuel - 1, by omega⟩
    have hlt : rc < s.config.MaxRetry := by
      rcases hbud with h | h
      · omega
      · push_cast at h; omega
    obtain ⟨err, herr⟩ : ∃ err, env.exec s.execs = some err := by
      have := hfail 0 (by omega)
      cases h : env.exec s.execs with
      | none => simp [h] at this
      | some e => exact ⟨e, rfl⟩
    obtain ⟨le1, s1, hstep⟩ := loopBody_retries env data rc le s hd err
      hpool herr hlt (fun _ => hconn _ le_rfl)
    obtain ⟨-, -, hle1, hclk, hcfg, -, -, hex, hd0, err0, hp0, he0, hcase⟩ :=
      loopBody_next hstep
    have hpool1 : ∃ hd1, s1.dbPool = some hd1 := by
      rcases hcase with ⟨-, h, -⟩ | ⟨-, -, h, -⟩ <;> exact ⟨_, h⟩
    obtain ⟨hd1, hpool1⟩ := hpool1
    have hconn1 : s.connects ≤ s1.connects := by
      rcases hcase with ⟨-, -, h, -⟩ | ⟨-, -, -, h, -⟩ <;> omega
    obtain ⟨s2, d2, hrun, htr2, hat, hrl, hsl, hft, hdt, hcfg2, hck2⟩ :=
      ih f (rc + 1) le1 s1 hd1 (by omega)
        (by right; rw [hcfg]; rcases hbud with h | h
            · omega
            · push_cast at h; omega)
        hpool1 (fun j hj => hconn j (le_trans hconn1 hj))
        (fun i hi => by
          have := hfail (i + 1) (by omega)
          rwa [hex, Nat.add_assoc, Nat.add_comm 1 i])
        (by rwa [hex, Nat.add_assoc, Nat.add_comm 1 k])
        (by omega)
    have hne1 : rc + 1 ≠ 1 := by omega
    rw [retryLoop_next f hstep]
    rcases hcase with ⟨-, -, -, htr1⟩ | ⟨-, -, -, -, htr1⟩
    all_goals
      refine ⟨s2, _, hrun, by rw [htr2, htr1, List.append_assoc], ?_⟩
      simp only [attempts_append, retryingLines_append, sleeps_append, fatals_append,
        downTimes_append, hat, hrl, hsl, hft, hdt, hcfg, hcfg2, hck2, hne1, hle1, hclk]
      rcases eq_or_ne rc 1 with rfl | hne <;>
        simp [attempts, retryingLines, sleeps, fatals, downTimes, Event.isExec,
          Event.isRetrying, Event.sleepOf, Event.isFatal, Event.downTimeOf,
          List.replicate_succ, *] <;> omega


/-- The loop, entered with `m + 1` failing attempts ahead of which the last one
uses up the budget: it terminates the process right after that attempt. -/
theorem retryLoop_gives_up (env : Env) (data : String) (m : Nat) :
    ∀ (fuel : Nat) (rc : Int) (le : Time) (s : State) (hd : Handle),
      1 ≤ rc → rc + m = s.config.MaxRetry → s.dbPool = some hd →
      (∀ j, s.connects ≤ j → env.connect j = .ok) →
      (∀ i, i ≤ m → env.exec (s.execs + i) ≠ none) → m < fuel →
      ∃ s1 front hl err, retryLoop env data fuel rc le s = some (.abort s1) ∧
        s1.trace = s.trace ++
          (front ++ [.exec hl insertStmt [data, "idle"], .fatalInsert data err]) ∧
        attempts front = m ∧ retryingLines front = m ∧
        sleeps front = List.replicate m (secondsDuration s.config.DelayRetry) ∧
        fatals front = 0 ∧ downTimes front = [] := by
  induction m with
  | zero =>
    intro fuel rc le s hd hrc hbud hpool _ hfail hfuel
    obtain ⟨f, rfl⟩ : ∃ f, fuel = f + 1 := ⟨fuel - 1, by omega⟩
    obtain ⟨err, herr⟩ : ∃ err, env.exec s.execs = some err := by
      have := hfail 0 (by omega)
      cases h : env.exec s.execs with
      | none => simp [h] at this
      | some e => exact ⟨e, rfl⟩
    have hmax : s.config.MaxRetry ≤ rc := by simp at hbud; omega
    obtain ⟨s1, hstep⟩ := loopBody_gives_up env data rc le s hd err
      hpool herr hmax
    obtain ⟨-, -, -, hcase⟩ := loopBody_abort hstep
    rcases hcase with ⟨hn, -⟩ | ⟨hd0, err0, -, -, -, -, htr⟩ | ⟨-, -, -, -, hlt, -⟩
    · rw [hpool] at hn; cases hn
    · exact ⟨s1, [], hd0, err0, retryLoop_abort f hstep, by simpa using htr, by simp⟩
    · omega
  | succ m ih =>
    intro fuel rc le s hd hrc hbud hpool hconn hfail hfuel
    obtain ⟨f, rfl⟩ : ∃ f, fuel = f + 1 := ⟨fuel - 1, by omega⟩
    have hlt : rc < s.config.MaxRetry := by push_cast at hbud; omega
    obtain ⟨err, herr⟩ : ∃ err, env.exec s.execs = some err := by
      have := hfail 0 (by omega)
      cases h : env.exec s.execs with
      | none => simp [h] at this
      | some e => exact ⟨e, rfl⟩
    obtain ⟨le1, s1, hstep⟩ := loopBody_retries env data rc le s hd err
      hpool herr hlt (fun _ => hconn _ le_rfl)
    obtain ⟨-, -, -, -, hcfg, -, -, hex, hd0, err0, hp0, he0, hcase⟩ :=
      loopBody_next hstep
    have hpool1 : ∃ hd1, s1.dbPool = some hd1 := by
      rcases hcase with ⟨-, h, -⟩ | ⟨-, -, h, -⟩ <;> exact ⟨_, h⟩
    obtain ⟨hd1, hpool1⟩ := hpool1
    have hconn1 : s.connects ≤ s1.connects := by
      rcases hcase with ⟨-, -, h, -⟩ | ⟨-, -, -, h, -⟩ <;> omega
    obtain ⟨s2, fr, hl, e2, hrun, htr2, hat, hrl, hsl, hft, hdt⟩ :=
      ih f (rc + 1) le1 s1 hd1 (by omega) (by rw [hcfg]; push_cast at hbud; omega)
        hpool1 (fun j hj => hconn j (le_trans hconn1 hj))
        (fun i hi => by
          have := hfail (i + 1) (by omega)
          rwa [hex, Nat.add_assoc, Nat.add_comm 1 i])
        (by omega)
    rw [retryLoop_next f hstep]
    rcases hcase with ⟨-, -, -, htr1⟩ | ⟨-, -, -, -, htr1⟩
    all_goals
      refine ⟨s2, _ ++ fr, hl, e2, hrun,
        by rw [htr2, htr1, List.append_assoc, List.append_assoc], ?_⟩
      simp only [attempts_append, retryingLines_append, sleeps_append, fatals_append,
        downTimes_append, hat, hrl, hsl, hft, hdt, hcfg]
      simp [attempts, retryingLines, sleeps, fatals, downTimes, Event.isExec,
        Event.isRetrying, Event.sleepOf, Event.isFatal, Event.downTimeOf,
        List.replicate_succ]
      omega

/-- The loop returns once the step bound exceeds what is left of the budget. -/
theorem retryLoop_total (env : Env) (data : String) (fuel : Nat) :
    ∀ (rc : Int) (le : Time) (s : State), (s.config.MaxRetry - rc).toNat < fuel →
      ∃ r, retryLoop env data fuel rc le s = some r := by
  induction fuel with
  | zero => intro rc le s h; omega
  | succ f ih =>
    intro rc le s h
    cases hstep : loopBody env data rc le s with
    | next rc1 le1 s1 =>
      obtain ⟨h1, hlt, -, -, hcfg, -⟩ := loopBody_next hstep
      rw [retryLoop_next f hstep]
      exact ih rc1 le1 s1 (by rw [hcfg, h1]; omega)
    | done s1 => exact ⟨_, retryLoop_done f hstep⟩
    | abort s1 => exact ⟨_, retryLoop_abort f hstep⟩


/-- The actions of a pass that loops back, summarised. -/
theorem loopBody_next_trace {env : Env} {data : String} {rc rc1 : Int} {le le1 : Time}
    {s s1 : State} (h : loopBody env data rc le s = .next rc1 le1 s1) :
    ∃ st, s1.trace = s.trace ++ st ∧ attempts st = 1 ∧ retryingLines st = 1 ∧
      sleeps st = [secondsDuration s.config.DelayRetry] ∧ fatals st = 0 ∧
      downTimes st = [] ∧ st.countP Event.isInsertSuccess = 0 ∧ st ≠ [] ∧
      ∀ e ∈ st, e.isExec = true → ∃ hd, e = .exec hd insertStmt [data, "idle"] := by
  obtain ⟨-, -, -, -, -, -, -, -, hd0, err0, -, -, hcase⟩ := loopBody_next h
  rcases hcase with ⟨-, -, -, htr1⟩ | ⟨-, -, -, -, htr1⟩
  all_goals
    refine ⟨_, htr1, ?_⟩
    simp [attempts, retryingLines, sleeps, fatals, downTimes, Event.isExec,
      Event.isRetrying, Event.sleepOf, Event.isFatal, Event.downTimeOf,
      Event.isInsertSuccess]

/-- The actions of a pass that terminates the process, summarised. -/
theorem loopBody_abort_trace {env : Env} {data : String} {rc : Int} {le : Time}
    {s s1 : State} (h : loopBody env data rc le s = .abort s1) :
    ∃ st, s1.trace = s.trace ++ st ∧ attempts st ≤ 1 ∧ s1.execs = s.execs + attempts st ∧
      downTimes st = [] ∧ st.countP Event.isInsertSuccess = 0 ∧
      ∀ e ∈ st, e.isExec = true → ∃ hd, e = .exec hd insertStmt [data, "idle"] := by
  obtain ⟨-, -, -, hcase⟩ := loopBody_abort h
  rcases hcase with ⟨-, hex, htr⟩ | ⟨hd0, err0, -, -, -, hex, htr⟩ |
    ⟨hd0, tl, -, -, -, -, hex, htr, htl⟩
  · refine ⟨_, htr, ?_⟩
    simp [attempts, downTimes, Event.isExec, Event.downTimeOf, Event.isInsertSuccess, hex]
  · refine ⟨_, htr, ?_⟩
    simp [attempts, downTimes, Event.isExec, Event.downTimeOf, Event.isInsertSuccess, hex]
  · refine ⟨_, htr, ?_⟩
    have h1 : List.countP Event.isExec tl = 0 := by
      rw [List.countP_eq_zero]; intro e he; simp [(htl e he).1]
    have h2 : List.filterMap Event.downTimeOf tl = [] := by
      rw [List.filterMap_eq_nil_iff]; intro e he
      have := (htl e he).2.1
      cases e <;> simp_all [Event.isDownTime, Event.downTimeOf]
    have h3 : List.countP Event.isInsertSuccess tl = 0 := by
      rw [List.countP_eq_zero]; intro e he; simp [(htl e he).2.2.2.2]
    simp [attempts, downTimes, Event.isExec, Event.downTimeOf, Event.isInsertSuccess, hex,
      h1, h2, h3]
    intro e he hx
    have := (htl e he).1
    cases e <;> simp_all [Event.isExec]

/-- Whatever the outside world answers, this is what one run of the loop does. -/
theorem retryLoop_effect {env : Env} {data : String} (fuel : Nat) :
    ∀ (rc : Int) (le : Time) (s : State) (r : Outcome), 1 ≤ rc →
      retryLoop env data fuel rc le s = some r →
      r.state.config = s.config ∧ r.state.delay = s.delay ∧ r.state.emails = s.emails ∧
      ∃ delta, r.state.trace = s.trace ++ delta ∧
        (∀ e ∈ delta, e.isExec = true → ∃ h, e = .exec h insertStmt [data, "idle"]) ∧
        (attempts delta : Int) ≤ max 1 (s.config.MaxRetry - rc + 1) ∧
        r.state.execs = s.execs + attempts delta ∧
        (r.aborted = true → downTimes delta = [] ∧
          delta.countP Event.isInsertSuccess = 0) ∧
        (r.aborted = false →
          (downTimes delta).length = (if rc = 1 ∧ env.exec s.execs = none then 0 else 1) ∧
          1 ≤ attempts delta ∧ (attempts delta = 1 ↔ env.exec s.execs = none) ∧
          delta.getLast? = some (.logInsertSuccess data) ∧
          delta.countP Event.isInsertSuccess = 1 ∧
          sleeps delta = List.replicate (attempts delta - 1)
            (secondsDuration s.config.DelayRetry)) := by
  induction fuel with
  | zero => intro rc le s r _ h; simp at h
  | succ f ih =>
    intro rc le s r hrc h
    cases hstep : loopBody env data rc le s with
    | next rc1 le1 s1 =>
      rw [retryLoop_next f hstep] at h
      obtain ⟨h1, hlt, -, -, hcfg, hdl, hem, hex, hd0, err0, hp0, he0, -⟩ :=
        loopBody_next hstep
      obtain ⟨st, htr1, s1a, -, s1s, -, s1d, s1i, -, s1e⟩ := loopBody_next_trace hstep
      obtain ⟨c1, c2, c3, d2, htr2, hall, hbd, hexs, hab, hok⟩ :=
        ih rc1 le1 s1 r (by omega) h
      have hne1 : rc1 ≠ 1 := by omega
      refine ⟨c1.trans hcfg, c2.trans hdl, c3.trans hem, st ++ d2,
        by rw [htr2, htr1, List.append_assoc], ?_, ?_, ?_, ?_, ?_⟩
      · intro e he
        rcases List.mem_append.mp he with he | he
        · exact s1e e he
        · exact hall e he
      · rw [hcfg, h1] at hbd
        rw [attempts_append, s1a]
        push_cast
        omega
      · rw [hexs, hex, attempts_append, s1a]
        omega
      · intro ha
        obtain ⟨a1, a2⟩ := hab ha
        simp [a1, a2, s1d, s1i]
      · intro ha
        obtain ⟨a1, a2, a3, a4, a5, a6⟩ := hok ha
        simp only [hne1, false_and, if_false] at a1
        have hd2 : d2 ≠ [] := by
          intro h0; simp [h0] at a4
        rw [List.getLast?_append_of_ne_nil _ hd2]
        simp only [attempts_append, downTimes_append, sleeps_append, List.countP_append,
          s1a, s1d, s1s, s1i, he0, a4, a5, a6, hcfg]
        obtain ⟨n, hn⟩ : ∃ n, attempts d2 = n + 1 := ⟨attempts d2 - 1, by omega⟩
        refine ⟨by simp [a1], by omega, by simp; omega, trivial, trivial, ?_⟩
        simp [hn, Nat.add_comm 1 n, List.replicate_succ]
    | done s1 =>
      rw [retryLoop_done f hstep] at h
      cases h
      obtain ⟨hnone, -, hcfg, hdl, hem, hex, -, -, hd0, hp0, htr⟩ := loopBody_done hstep
      refine ⟨hcfg, hdl, hem, _, htr, ?_⟩
      rcases eq_or_ne rc 1 with rfl | hne
      · simp [attempts, downTimes, sleeps, Event.isExec, Event.downTimeOf,
          Event.isInsertSuccess, Event.sleepOf, Outcome.state, Outcome.aborted, hnone, hex]
      · have hgt : rc > 1 := by omega
        simp [attempts, downTimes, sleeps, Event.isExec, Event.downTimeOf,
          Event.isInsertSuccess, Event.sleepOf, Outcome.state, Outcome.aborted, hnone, hex,
          hgt, hne]
    | abort s1 =>
      rw [retryLoop_abort f hstep] at h
      cases h
      obtain ⟨hcfg, hdl, hem, -⟩ := loopBody_abort hstep
      obtain ⟨st, htr, ha, hex, hd, hi, he⟩ := loopBody_abort_trace hstep
      refine ⟨hcfg, hdl, hem, st, htr, he, ?_, hex, fun _ => ⟨hd, hi⟩, ?_⟩
      · have : (1 : Int) ≤ max 1 (s.config.MaxRetry - rc + 1) := le_max_left _ _
        have h2 : (attempts st : Int) ≤ 1 := by exact_mod_cast ha
        omega
      · intro hf; simp [Outcome.aborted] at hf

/-! ## One logical write -/

/-- In range, `time.Duration(n) * time.Second` is `n` seconds. -/
theorem secondsDuration_eq (n : Int) (h0 : -(2 ^ 63) ≤ n * 1000000000)
    (h1 : n * 1000000000 < 2 ^ 63) :
    secondsDuration n = n * 1000000000 := by
  unfold secondsDuration wrap64
  norm_num at h0 h1 ⊢
  rw [Int.emod_eq_of_lt (by omega) (by omega)]
  ring

/-- Out of range it wraps around: 9223372037 seconds become a negative duration. -/
theorem secondsDuration_longDelay :
    secondsDuration longDelayConfig.DelayRetry = -9223372036709551616 := by
  decide

/-- C1 as stated fails.  With `delay_retry = 9223372037` and `max_retry = 3`, a
write whose first attempt fails and whose second succeeds returns normally after
2 attempts and 1 "Retrying" line, but its one backoff sleep is
`time.Duration(9223372037) * time.Second`, which wraps around to
-9223372036709551616 ns: not a sleep of `DelayRetry` seconds. -/
theorem generateDummyData_recovers_delay_wraps :
    ∃ s1 delta,
      generateDummyData (flakyEnv longDelayConfig 1 "pq: the database system is shutting down")
        2 (connectedState longDelayConfig) = some (.ok s1) ∧
      s1.trace = (connectedState longDelayConfig).trace ++ delta ∧
      attempts delta = 2 ∧ retryingLines delta = 1 ∧ fatals delta = 0 ∧
      sleeps delta = [-9223372036709551616] ∧
      sleeps delta ≠ List.replicate 1 (longDelayConfig.DelayRetry * 1000000000) := by
  obtain ⟨s1, delta, h1, h2, h3, h4, h5, h6, -⟩ :=
    retryLoop_recovers
      (flakyEnv longDelayConfig 1 "pq: the database system is shutting down")
      "user0@example.com" 1 2 1 0
      { connectedState longDelayConfig with emails := 1, clockReads := 1 } 0 le_rfl
      (Or.inr (by decide)) rfl (fun _ _ => rfl)
      (fun i hi => by
        have hi0 : i = 0 := by omega
        subst hi0
        simp [flakyEnv, connectedState])
      (by simp [flakyEnv, connectedState]) (by decide)
  have h5' : sleeps delta = [-9223372036709551616] := by
    rw [h5]
    show [secondsDuration longDelayConfig.DelayRetry] = _
    rw [secondsDuration_longDelay]
  refine ⟨s1, delta, h1, h2, h3, h4, h6, h5', ?_⟩
  rw [h5']
  decide

/-- C1, amended.  Let the configured `MaxRetry` be `N`, `k < N`, and let
`DelayRetry` seconds fit a `Duration` (`DelayRetry * 10^9` is a 64-bit signed
integer).  A logical write whose first `k` attempts fail and whose attempt
`k + 1` succeeds (the connection is up on entry and every reconnection asked
for on the way succeeds, so that the attempts do take place) returns normally.
What it has done: exactly `k + 1` write attempts, exactly `k` "Retrying" lines,
exactly `k` sleeps, each of `DelayRetry` seconds, and no fatal line. -/
theorem generateDummyData_recovers (env : Env) (s : State) (hd : Handle) (N : Int)
    (k fuel : Nat) (hN : s.config.MaxRetry = N) (hk : (k : Int) < N)
    (hlo : -(2 ^ 63) ≤ s.config.DelayRetry * 1000000000)
    (hhi : s.config.DelayRetry * 1000000000 < 2 ^ 63)
    (hpool : s.dbPool = some hd)
    (hconn : ∀ j, s.connects ≤ j → env.connect j = .ok)
    (hfail : ∀ i, i < k → env.exec (s.execs + i) ≠ none)
    (hsucc : env.exec (s.execs + k) = none)
    (hfuel : k < fuel) :
    ∃ s1 delta, generateDummyData env fuel s = some (.ok s1) ∧
      s1.trace = s.trace ++ delta ∧ attempts delta = k + 1 ∧ retryingLines delta = k ∧
      sleeps delta = List.replicate k (s.config.DelayRetry * 1000000000) ∧
      fatals delta = 0 := by
  obtain ⟨s1, delta, hrun, htr, ha, hr, hs, hf, -, -, -⟩ :=
    retryLoop_recovers env (env.email s.emails) k fuel 1
      (env.now s.clockReads)
      { s with emails := s.emails + 1, clockReads := s.clockReads + 1 } hd le_rfl
      (by right; show (1 : Int) + k ≤ s.config.MaxRetry; omega) hpool hconn hfail hsucc hfuel
  refine ⟨s1, delta, hrun, htr, ha, hr, ?_, hf⟩
  rw [hs]
  show List.replicate k (secondsDuration s.config.DelayRetry) = _
  rw [secondsDuration_eq _ hlo hhi]

/-- C1, amended, at `N = 3` and a delay of one second, two failures then a
success: 3 attempts, 2 "Retrying" lines, 2 sleeps of one second. -/
theorem generateDummyData_recovers_witness :
    ∃ s1 delta,
      generateDummyData (flakyEnv sampleConfig 2 "pq: the database system is shutting down") 3
        (connectedState sampleConfig) = some (.ok s1) ∧
      s1.trace = (connectedState sampleConfig).trace ++ delta ∧
      attempts delta = 3 ∧ retryingLines delta = 2 ∧
      sleeps delta = [1000000000, 1000000000] ∧ fatals delta = 0 :=
  generateDummyData_recovers
    (flakyEnv sampleConfig 2 "pq: the database system is shutting down")
    (connectedState sampleConfig) 0 3 2 3 rfl (by decide) (by decide) (by decide) rfl
    (fun _ _ => rfl)
    (fun i hi => by simp [flakyEnv, connectedState, hi])
    (by simp [flakyEnv, connectedState]) (by decide)

/-- A failing first pass of a `for` body terminates the whole `for`. -/
theorem forLoop_abort (body : State → Option Outcome) (s s1 : State)
    (h : body s = some (.abort s1)) (n : Nat) :
    forLoop body (n + 1) s = some (.abort s1) := by
  simp [forLoop, h]

/-- C2. Let the configured `MaxRetry` be `N ≥ 1`.  A logical write whose first
`N` attempts all fail (connection up on entry, reconnections succeeding)
terminates the process: exactly `N` attempts and exactly one fatal line, which
directly follows the `N`-th attempt, so that no reset and no sleep comes after
the `N`-th failure; before it there are `N - 1` "Retrying" lines and `N - 1`
backoff sleeps.  A run of either mode that reaches this write ends in the very
same state, whatever the number of records left: nothing more is attempted. -/
theorem generateDummyData_gives_up (env : Env) (s : State) (hd : Handle) (N fuel : Nat)
    (hN : s.config.MaxRetry = (N : Int)) (h1 : 1 ≤ N)
    (hpool : s.dbPool = some hd)
    (hconn : ∀ j, s.connects ≤ j → env.connect j = .ok)
    (hfail : ∀ i, i < N → env.exec (s.execs + i) ≠ none)
    (hfuel : N ≤ fuel) :
    ∃ s1 delta front hl err, generateDummyData env fuel s = some (.abort s1) ∧
      s1.trace = s.trace ++ delta ∧
      delta = front ++ [.exec hl insertStmt [env.email s.emails, "idle"],
        .fatalInsert (env.email s.emails) err] ∧
      attempts delta = N ∧ fatals delta = 1 ∧ retryingLines delta = N - 1 ∧
      sleeps delta = List.replicate (N - 1) (secondsDuration s.config.DelayRetry) ∧
      (∀ n, forLoop (generateDummyData env fuel) (n + 1) s = some (.abort s1)) ∧
      (∀ n, forLoop (pacedWrite env fuel) (n + 1) s = some (.abort s1)) := by
  obtain ⟨m, rfl⟩ : ∃ m, N = m + 1 := ⟨N - 1, by omega⟩
  obtain ⟨s1, front, hl, err, hrun, htr, ha, hr, hs, hf, -⟩ :=
    retryLoop_gives_up env (env.email s.emails) m fuel 1
      (env.now s.clockReads)
      { s with emails := s.emails + 1, clockReads := s.clockReads + 1 } hd le_rfl
      (by show (1 : Int) + m = s.config.MaxRetry; rw [hN]; push_cast; omega)
      hpool hconn (fun i hi => hfail i (by omega)) (by omega)
  have hgen : generateDummyData env fuel s = some (.abort s1) := hrun
  refine ⟨s1, _, front, hl, err, hgen, htr, rfl, ?_, ?_, ?_, ?_, ?_, ?_⟩
  · rw [attempts_append, ha]; simp [attempts, Event.isExec]
  · rw [fatals_append, hf]; simp [fatals, Event.isFatal]
  · rw [retryingLines_append, hr]; simp [retryingLines, Event.isRetrying]
  · rw [sleeps_append, hs]; simp [sleeps, Event.sleepOf]
  · exact fun n => forLoop_abort _ _ _ hgen n
  · exact fun n => forLoop_abort (pacedWrite env fuel) s s1 (by simp [pacedWrite, hgen]) n

/-- C2 at `N = 3` with three read-only rejections in a row. -/
theorem generateDummyData_gives_up_witness :
    ∃ s1 delta front hl err,
      generateDummyData (flakyEnv sampleConfig 3 readOnlyError) 3
        (connectedState sampleConfig) = some (.abort s1) ∧
      s1.trace = (connectedState sampleConfig).trace ++ delta ∧
      delta = front ++ [.exec hl insertStmt ["user0@example.com", "idle"],
        .fatalInsert "user0@example.com" err] ∧
      attempts delta = 3 ∧ fatals delta = 1 ∧ retryingLines delta = 2 ∧
      sleeps delta = [1000000000, 1000000000] ∧
      (∀ n, forLoop (generateDummyData (flakyEnv sampleConfig 3 readOnlyError) 3) (n + 1)
        (connectedState sampleConfig) = some (.abort s1)) ∧
      (∀ n, forLoop (pacedWrite (flakyEnv sampleConfig 3 readOnlyError) 3) (n + 1)
        (connectedState sampleConfig) = some (.abort s1)) :=
  generateDummyData_gives_up (flakyEnv sampleConfig 3 readOnlyError)
    (connectedState sampleConfig) 0 3 3 rfl (by decide) rfl (fun _ _ => rfl)
    (fun i hi => by simp [flakyEnv, connectedState, hi]) (by decide)

/-- C3. Whatever the outside world answers, a logical write returns, and the
number of "DownTime" lines it has written is: none when it ends in the process
being terminated; none when it succeeds at the first attempt (which is the
case exactly when it made one attempt); exactly one when it succeeds after at
least one failed attempt, however many attempts failed. -/
theorem generateDummyData_downTime_once (env : Env) (s : State) (fuel : Nat)
    (hfuel : (s.config.MaxRetry - 1).toNat < fuel) :
    ∃ r delta, generateDummyData env fuel s = some r ∧ r.state.trace = s.trace ++ delta ∧
      (r.aborted = true → downTimes delta = []) ∧
      (r.aborted = false →
        (attempts delta = 1 ↔ env.exec s.execs = none) ∧
        (env.exec s.execs = none → downTimes delta = []) ∧
        (env.exec s.execs ≠ none → 2 ≤ attempts delta ∧ (downTimes delta).length = 1)) := by
  obtain ⟨r, hr⟩ := retryLoop_total env (env.email s.emails) fuel 1
    (env.now s.clockReads)
    { s with emails := s.emails + 1, clockReads := s.clockReads + 1 } hfuel
  obtain ⟨-, -, -, delta, htr, -, -, -, hab, hok⟩ := retryLoop_effect fuel _ _ _ _ le_rfl hr
  refine ⟨r, delta, hr, htr, fun h => (hab h).1, fun h => ?_⟩
  obtain ⟨a1, a2, a3, -⟩ := hok h
  refine ⟨a3, fun h0 => ?_, fun h0 => ?_⟩
  · have : (downTimes delta).length = 0 := by simpa [h0] using a1
    exact List.length_eq_zero.mp this
  · have h0' : ¬ (env.exec s.execs = none) := h0
    refine ⟨?_, by simpa [h0'] using a1⟩
    have : attempts delta ≠ 1 := fun h1 => h0 (a3.mp h1)
    omega

/-- C3 in a world where the first two writes are rejected. -/
theorem generateDummyData_downTime_once_witness :
    ∃ r delta,
      generateDummyData (flakyEnv sampleConfig 2 readOnlyError) 3
        (connectedState sampleConfig) = some r ∧
      r.state.trace = (connectedState sampleConfig).trace ++ delta ∧
      (r.aborted = true → downTimes delta = []) ∧
      (r.aborted = false →
        (attempts delta = 1 ↔
          (flakyEnv sampleConfig 2 readOnlyError).exec (connectedState sampleConfig).execs =
            none) ∧
        ((flakyEnv sampleConfig 2 readOnlyError).exec (connectedState sampleConfig).execs =
            none → downTimes delta = []) ∧
        ((flakyEnv sampleConfig 2 readOnlyError).exec (connectedState sampleConfig).execs ≠
            none → 2 ≤ attempts delta ∧ (downTimes delta).length = 1)) :=
  generateDummyData_downTime_once (flakyEnv sampleConfig 2 readOnlyError)
    (connectedState sampleConfig) 3 (by decide)

/-- C4. A logical write with `k ≥ 1` failed attempts, all under the budget,
followed by a successful one reads the clock three times: on entry, at the
first failure and at the successful attempt.  It reports one downtime,
`(T1 - T0) / 1000000` truncated, where `T0` is the second reading and `T1` the
third.  The second reading is the one of the first failure: the first pass
(`retryCount = 1`) loops back with `lastError` set to it.  No later failure
overwrites it: a pass with `retryCount ≠ 1` that loops back reads no clock and
leaves `lastError` as it was. -/
theorem generateDummyData_downTime_value (env : Env) (s : State) (hd : Handle)
    (k fuel : Nat) (hk : 1 ≤ k) (hbudget : (k : Int) < s.config.MaxRetry)
    (hpool : s.dbPool = some hd)
    (hconn : ∀ j, s.connects ≤ j → env.connect j = .ok)
    (hfail : ∀ i, i < k → env.exec (s.execs + i) ≠ none)
    (hsucc : env.exec (s.execs + k) = none)
    (hfuel : k < fuel) :
    (∃ s1 delta, generateDummyData env fuel s = some (.ok s1) ∧
      s1.trace = s.trace ++ delta ∧ attempts delta = k + 1 ∧
      downTimes delta =
        [milliseconds (env.now (s.clockReads + 2) - env.now (s.clockReads + 1))] ∧
      s1.clockReads = s.clockReads + 3) ∧
    (∃ t, loopBody env (env.email s.emails) 1 (env.now s.clockReads)
        { s with emails := s.emails + 1, clockReads := s.clockReads + 1 } =
      .next 2 (env.now (s.clockReads + 1)) t) ∧
    (∀ data rc le t rc1 le1 t1, rc ≠ 1 →
      loopBody env data rc le t = .next rc1 le1 t1 →
        le1 = le ∧ t1.clockReads = t.clockReads) := by
  obtain ⟨s1, delta, hrun, htr, ha, -, -, -, hdt, -, hck⟩ :=
    retryLoop_recovers env (env.email s.emails) k fuel 1
      (env.now s.clockReads)
      { s with emails := s.emails + 1, clockReads := s.clockReads + 1 } hd le_rfl
      (by right; show (1 : Int) + k ≤ s.config.MaxRetry; omega) hpool hconn hfail hsucc hfuel
  have hk0 : k ≠ 0 := by omega
  refine ⟨⟨s1, delta, hrun, htr, ha, ?_, ?_⟩, ?_, ?_⟩
  · simpa [hk0, Nat.add_assoc] using hdt
  · simpa [hk0, Nat.add_assoc] using hck
  · obtain ⟨err, herr⟩ := Option.ne_none_iff_exists'.mp (hfail 0 (by omega))
    obtain ⟨le1, t, hstep⟩ := loopBody_retries env (env.email s.emails) 1
      (env.now s.clockReads)
      { s with emails := s.emails + 1, clockReads := s.clockReads + 1 } hd err hpool herr
      (by show (1 : Int) < s.config.MaxRetry; omega) (fun _ => hconn _ le_rfl)
    obtain ⟨-, -, hle, -⟩ := loopBody_next hstep
    refine ⟨t, ?_⟩
    rw [hstep, hle]
    simp
  · intro data rc le t rc1 le1 t1 hrc hstep
    obtain ⟨-, -, hle, hclk, -⟩ := loopBody_next hstep
    simp [hrc] at hle hclk
    exact ⟨hle, hclk⟩

/-- C4 with two failures and a clock that advances one millisecond per reading:
the reported downtime is 1 ms. -/
theorem generateDummyData_downTime_value_witness :
    ∃ s1 delta,
      generateDummyData (flakyEnv sampleConfig 2 readOnlyError) 3
        (connectedState sampleConfig) = some (.ok s1) ∧
      s1.trace = (connectedState sampleConfig).trace ++ delta ∧ attempts delta = 3 ∧
      downTimes delta = [1] ∧ s1.clockReads = 3 :=
  (generateDummyData_downTime_value (flakyEnv sampleConfig 2 readOnlyError)
    (connectedState sampleConfig) 0 2 3 (by decide) (by decide) rfl (fun _ _ => rfl)
    (fun i hi => by simp [flakyEnv, connectedState, hi])
    (by simp [flakyEnv, connectedState]) (by decide)).1

/-- C7. Whatever the outside world answers, a logical write draws exactly one
value from the record generator, and every attempt it makes, on whichever
connection, is the same single-row insert statement with that value as
description and the constant "idle" as status. -/
theorem generateDummyData_same_record (env : Env) (s : State) (fuel : Nat)
    (hfuel : (s.config.MaxRetry - 1).toNat < fuel) :
    ∃ r delta, generateDummyData env fuel s = some r ∧ r.state.trace = s.trace ++ delta ∧
      r.state.emails = s.emails + 1 ∧
      ∀ e ∈ delta, e.isExec = true →
        ∃ h, e = .exec h insertStmt [env.email s.emails, "idle"] := by
  obtain ⟨r, hr⟩ := retryLoop_total env (env.email s.emails) fuel 1
    (env.now s.clockReads)
    { s with emails := s.emails + 1, clockReads := s.clockReads + 1 } hfuel
  obtain ⟨-, -, hem, delta, htr, hall, -⟩ := retryLoop_effect fuel _ _ _ _ le_rfl hr
  exact ⟨r, delta, hr, htr, hem, hall⟩

/-- C7 in a world where two read-only rejections force two connection resets. -/
theorem generateDummyData_same_record_witness :
    ∃ r delta,
      generateDummyData (flakyEnv sampleConfig 2 readOnlyError) 3
        (connectedState sampleConfig) = some r ∧
      r.state.trace = (connectedState sampleConfig).trace ++ delta ∧
      r.state.emails = 1 ∧
      ∀ e ∈ delta, e.isExec = true →
        ∃ h, e = .exec h insertStmt ["user0@example.com", "idle"] :=
  generateDummyData_same_record (flakyEnv sampleConfig 2 readOnlyError)
    (connectedState sampleConfig) 3 (by decide)

/-- C10. For every value of `MaxRetry`, zero and negative ones included, and
every behaviour of the outside world, a logical write returns (normally or
with the process terminated) after at most `max 1 MaxRetry` attempts, as soon as
the step bound is that large.  With `MaxRetry ≤ 1`, a failed first attempt
terminates the process: no "Retrying" line, no sleep, no close, open or ping. -/
theorem generateDummyData_terminates (env : Env) (s : State) (fuel : Nat)
    (hfuel : (max 1 s.config.MaxRetry).toNat ≤ fuel) :
    ∃ r delta, generateDummyData env fuel s = some r ∧ r.state.trace = s.trace ++ delta ∧
      (attempts delta : Int) ≤ max 1 s.config.MaxRetry ∧
      (s.config.MaxRetry ≤ 1 → env.exec s.execs ≠ none →
        r.aborted = true ∧ attempts delta ≤ 1 ∧ retryingLines delta = 0 ∧
        sleeps delta = [] ∧ ∀ e ∈ delta, e.isReset = false) := by
  obtain ⟨r, hr⟩ := retryLoop_total env (env.email s.emails) fuel 1
    (env.now s.clockReads)
    { s with emails := s.emails + 1, clockReads := s.clockReads + 1 }
    (by show (s.config.MaxRetry - 1).toNat < fuel; omega)
  obtain ⟨-, -, -, delta, htr, -, hbd, -⟩ := retryLoop_effect fuel _ _ _ _ le_rfl hr
  refine ⟨r, delta, hr, htr, by simpa using hbd, fun hmax hne => ?_⟩
  obtain ⟨f, rfl⟩ : ∃ f, fuel = f + 1 := ⟨fuel - 1, by omega⟩
  have hab : ∃ s1, loopBody env (env.email s.emails) 1 (env.now s.clockReads)
      { s with emails := s.emails + 1, clockReads := s.clockReads + 1 } = .abort s1 := by
    rcases Option.eq_none_or_eq_some s.dbPool with hp | ⟨hd, hp⟩
    · exact ⟨_, by simp [loopBody, hp]; rfl⟩
    · obtain ⟨err, herr⟩ := Option.ne_none_iff_exists'.mp hne
      exact loopBody_gives_up _ _ _ _ _ hd err hp herr hmax
  obtain ⟨s1, hstep⟩ := hab
  rw [retryLoop_abort f hstep] at hr
  cases hr
  obtain ⟨-, -, -, hcase⟩ := loopBody_abort hstep
  have hd : ∀ x, s1.trace = s.trace ++ x → delta = x := fun x hx =>
    List.append_cancel_left (htr.symm.trans hx)
  rcases hcase with ⟨-, -, htr1⟩ | ⟨hd0, err0, -, -, -, -, htr1⟩ | ⟨-, -, -, -, hlt, -⟩
  · rw [hd _ htr1]
    simp [Outcome.aborted, attempts, retryingLines, sleeps, Event.isExec, Event.isRetrying,
      Event.sleepOf, Event.isReset]
  · rw [hd _ htr1]
    simp [Outcome.aborted, attempts, retryingLines, sleeps, Event.isExec, Event.isRetrying,
      Event.sleepOf, Event.isReset]
  · have : (1 : Int) < s.config.MaxRetry := hlt
    omega

/-- C10 at `MaxRetry = 1` with a rejected first write. -/
theorem generateDummyData_terminates_witness :
    ∃ r delta,
      generateDummyData (flakyEnv singleTryConfig 1 readOnlyError) 1
        (connectedState singleTryConfig) = some r ∧
      r.state.trace = (connectedState singleTryConfig).trace ++ delta ∧
      (attempts delta : Int) ≤ 1 ∧
      r.aborted = true ∧ attempts delta ≤ 1 ∧ retryingLines delta = 0 ∧
      sleeps delta = [] ∧ ∀ e ∈ delta, e.isReset = false := by
  obtain ⟨r, delta, h1, h2, h3, h4⟩ :=
    generateDummyData_terminates (flakyEnv singleTryConfig 1 readOnlyError)
      (connectedState singleTryConfig) 1 (by decide)
  exact ⟨r, delta, h1, h2, h3, h4 (by decide) (by decide)⟩

/-- A pass entered with a connection issues its attempt on that connection first. -/
theorem loopBody_first_attempt (env : Env) (data : String) (rc : Int) (le : Time)
    (s : State) (hd : Handle) (hpool : s.dbPool = some hd) :
    ∃ tl, (loopBody env data rc le s).state.trace =
      s.trace ++ .exec hd insertStmt [data, "idle"] :: tl := by
  cases hstep : loopBody env data rc le s with
  | next rc1 le1 s1 =>
    obtain ⟨-, -, -, -, -, -, -, -, hd0, err0, hp0, -, hcase⟩ := loopBody_next hstep
    rw [hpool] at hp0; cases hp0
    rcases hcase with ⟨-, -, -, htr1⟩ | ⟨-, -, -, -, htr1⟩ <;>
      exact ⟨_, by simpa [Step.state] using htr1⟩
  | done s1 =>
    obtain ⟨-, -, -, -, -, -, -, -, hd0, hp0, htr⟩ := loopBody_done hstep
    rw [hpool] at hp0; cases hp0
    exact ⟨_, by simpa [Step.state] using htr⟩
  | abort s1 =>
    obtain ⟨-, -, -, hcase⟩ := loopBody_abort hstep
    rcases hcase with ⟨hn, -⟩ | ⟨hd0, err0, hp0, -, -, -, htr⟩ |
      ⟨hd0, tl, hp0, -, -, -, -, htr, -⟩
    · rw [hpool] at hn; cases hn
    · rw [hpool] at hp0; cases hp0
      exact ⟨_, by simpa [Step.state] using htr⟩
    · rw [hpool] at hp0; cases hp0
      exact ⟨_, by simpa [Step.state] using htr⟩

/-- A read-only rejection under the budget whose reset cannot reconnect
terminates the process. -/
theorem loopBody_reset_fails (env : Env) (data : String) (rc : Int) (le : Time) (s : State)
    (hd : Handle) (hpool : s.dbPool = some hd)
    (herr : env.exec s.execs = some readOnlyError) (hbudget : rc < s.config.MaxRetry)
    (hconn : env.connect s.connects ≠ .ok) :
    ∃ s1, loopBody env data rc le s = .abort s1 := by
  have hmax : ¬ s.config.MaxRetry ≤ rc := not_le.mpr hbudget
  cases hc : env.connect s.connects with
  | ok => exact absurd hc hconn
  | openError e =>
    rcases eq_or_ne rc 1 with rfl | hrc <;>
      simp [loopBody, connectDB, hpool, herr, hmax, hc, *]
  | pingError e =>
    rcases eq_or_ne rc 1 with rfl | hrc <;>
      simp [loopBody, connectDB, hpool, herr, hmax, hc, *]

/-- C5. A failed attempt made on connection `hd` (a handle created by an
earlier `connectDB` call) under the retry budget (`retryCount < MaxRetry`).  When the error text is anything but the read-only
text (a text that contains it, or differs in case or spacing, included), the
pass loops back with no close, open or ping, `dbPool` is the same handle, and
the retry is issued on `hd`.  When the error text is exactly the read-only
text, `hd` is closed; if the new connection comes up, it is opened and pinged
before the sleep, `dbPool` is a different handle, and the retry is issued on
the new one; if it does not come up there is no retry: `connectDB` terminates
the process. -/
theorem loopBody_resets_iff_readOnly (env : Env) (data : String) (rc : Int) (le : Time)
    (s : State) (hd : Handle) (err : String)
    (hpool : s.dbPool = some hd) (hfresh : hd < s.connects)
    (herr : env.exec s.execs = some err) (hbudget : rc < s.config.MaxRetry) :
    (err ≠ readOnlyError →
      ∃ le1 s1, loopBody env data rc le s = .next (rc + 1) le1 s1 ∧
        s1.trace = s.trace ++ [.exec hd insertStmt [data, "idle"],
          .logRetrying data err rc s.config.MaxRetry,
          .sleep (secondsDuration s.config.DelayRetry)] ∧
        s1.dbPool = s.dbPool ∧ s1.connects = s.connects ∧
        ∀ rc2 le2, ∃ tl, (loopBody env data rc2 le2 s1).state.trace =
          s1.trace ++ .exec hd insertStmt [data, "idle"] :: tl) ∧
    (err = readOnlyError → env.connect s.connects = .ok →
      ∃ le1 s1, loopBody env data rc le s = .next (rc + 1) le1 s1 ∧
        s1.trace = s.trace ++ [.exec hd insertStmt [data, "idle"],
          .logRetrying data err rc s.config.MaxRetry,
          .close hd, .sqlOpen s.config.DSN (some s.connects), .ping s.connects,
          .sleep (secondsDuration s.config.DelayRetry)] ∧
        s1.dbPool = some s.connects ∧ s1.dbPool ≠ s.dbPool ∧
        ∀ rc2 le2, ∃ tl, (loopBody env data rc2 le2 s1).state.trace =
          s1.trace ++ .exec s.connects insertStmt [data, "idle"] :: tl) ∧
    (err = readOnlyError → env.connect s.connects ≠ .ok →
      ∃ s1 tl, loopBody env data rc le s = .abort s1 ∧
        s1.trace = s.trace ++ ([.exec hd insertStmt [data, "idle"],
          .logRetrying data err rc s.config.MaxRetry, .close hd] ++ tl) ∧
        attempts tl = 0) := by
  have hne : s.connects ≠ hd := Nat.ne_of_gt hfresh
  refine ⟨fun hro => ?_, fun hro hc => ?_, fun hro hc => ?_⟩
  · obtain ⟨le1, s1, hstep⟩ := loopBody_retries env data rc le s hd err
      hpool herr hbudget (fun h => absurd h hro)
    obtain ⟨-, -, -, -, -, -, -, -, hd0, err0, hp0, he0, hcase⟩ := loopBody_next hstep
    rw [hpool] at hp0; cases hp0
    rw [herr] at he0; cases he0
    rcases hcase with ⟨-, hp1, hc1, htr1⟩ | ⟨h, -⟩
    · exact ⟨le1, s1, hstep, htr1, hp1.trans hpool.symm, hc1,
        fun rc2 le2 => loopBody_first_attempt env data rc2 le2 s1 hd hp1⟩
    · exact absurd h hro
  · obtain ⟨le1, s1, hstep⟩ := loopBody_retries env data rc le s hd err
      hpool herr hbudget (fun _ => hc)
    obtain ⟨-, -, -, -, -, -, -, -, hd0, err0, hp0, he0, hcase⟩ := loopBody_next hstep
    rw [hpool] at hp0; cases hp0
    rw [herr] at he0; cases he0
    rcases hcase with ⟨h, -⟩ | ⟨-, -, hp1, -, htr1⟩
    · exact absurd hro h
    · refine ⟨le1, s1, hstep, htr1, hp1, ?_,
        fun rc2 le2 => loopBody_first_attempt env data rc2 le2 s1 s.connects hp1⟩
      rw [hp1, hpool]
      simpa using hne
  · subst hro
    obtain ⟨s1, hstep⟩ := loopBody_reset_fails env data rc le s hd
      hpool herr hbudget hc
    obtain ⟨-, -, -, hcase⟩ := loopBody_abort hstep
    rcases hcase with ⟨hn, -⟩ | ⟨-, -, -, -, hmax, -⟩ | ⟨hd0, tl, hp0, -, -, -, -, htr, htl⟩
    · rw [hpool] at hn; cases hn
    · omega
    · rw [hpool] at hp0; cases hp0
      refine ⟨s1, tl, hstep, htr, ?_⟩
      unfold attempts
      rw [List.countP_eq_zero]
      intro e he
      simp [(htl e he).1]

/-- C5 for a text that merely contains the read-only text, and for the text itself. -/
theorem loopBody_resets_iff_readOnly_witness :
    (∃ le1 s1,
      loopBody (flakyEnv sampleConfig 1
          "ERROR: pq: cannot execute INSERT in a read-only transaction")
        "user0@example.com" 1 0 (connectedState sampleConfig) = .next 2 le1 s1 ∧
      s1.trace = (connectedState sampleConfig).trace ++
        [.exec 0 insertStmt ["user0@example.com", "idle"],
         .logRetrying "user0@example.com"
           "ERROR: pq: cannot execute INSERT in a read-only transaction" 1 3,
         .sleep 1000000000] ∧
      s1.dbPool = some 0) ∧
    (∃ le1 s1,
      loopBody (flakyEnv sampleConfig 1 readOnlyError) "user0@example.com" 1 0
        (connectedState sampleConfig) = .next 2 le1 s1 ∧
      s1.trace = (connectedState sampleConfig).trace ++
        [.exec 0 insertStmt ["user0@example.com", "idle"],
         .logRetrying "user0@example.com" readOnlyError 1 3,
         .close 0, .sqlOpen "postgres://busy" (some 1), .ping 1, .sleep 1000000000] ∧
      s1.dbPool = some 1) := by
  constructor
  · obtain ⟨le1, s1, h1, h2, h3, -⟩ :=
      (loopBody_resets_iff_readOnly
        (flakyEnv sampleConfig 1 "ERROR: pq: cannot execute INSERT in a read-only transaction")
        "user0@example.com" 1 0 (connectedState sampleConfig) 0
        "ERROR: pq: cannot execute INSERT in a read-only transaction" rfl
        (by decide) rfl (by decide)).1 (by decide)
    exact ⟨le1, s1, h1, h2, h3⟩
  · obtain ⟨le1, s1, h1, h2, h3, -⟩ :=
      (loopBody_resets_iff_readOnly (flakyEnv sampleConfig 1 readOnlyError)
        "user0@example.com" 1 0 (connectedState sampleConfig) 0 readOnlyError rfl
        (by decide) rfl (by decide)).2.1 rfl rfl
    exact ⟨le1, s1, h1, h2, h3⟩

/-! ## The statements after the loop -/

/-- What the statements after the loop add to the trace. -/
theorem reportEnd_trace (env : Env) (t : Time) (s : State) :
    (reportEnd env t s).trace = s.trace ++
      [.logEndTime (env.now (s.clockReads + 1)), .logDuration (env.now s.clockReads - t)] := by
  simp [reportEnd]

/-! ## The whole program -/

/-- For a positive rate, dropping the fraction of `1000 / rps` is integer division. -/
theorem truncate_thousand_div (R : Nat) (hR : 0 < R) :
    truncate (1000 / ((R : Int) : ℚ)) = 1000 / (R : Int) := by
  unfold truncate
  have hq : (0 : ℚ) ≤ 1000 / ((R : Int) : ℚ) := by positivity
  rw [Int.tdiv_eq_ediv (Rat.num_nonneg.mpr hq) (by positivity), ← Rat.floor_def]
  have := Rat.floor_intCast_div_natCast 1000 R
  simpa using this

/-- A pause of at most 1000 ms is not affected by the 64-bit wrap-around. -/
theorem millisDuration_eq (n : Int) (h0 : 0 ≤ n) (h1 : n ≤ 1000) :
    millisDuration n = n * 1000000 := by
  unfold millisDuration wrap64
  norm_num
  rw [Int.emod_eq_of_lt (by omega) (by omega)]
  ring

/-- A write whose first attempt succeeds: the state it returns. -/
theorem generateDummyData_first_try (env : Env) (fuel : Nat) (s : State) (hd : Handle)
    (hpool : s.dbPool = some hd) (hok : env.exec s.execs = none) :
    generateDummyData env (fuel + 1) s = some (.ok
      { s with emails := s.emails + 1, clockReads := s.clockReads + 1, execs := s.execs + 1,
               trace := s.trace ++ [.exec hd insertStmt [env.email s.emails, "idle"],
                 .logInsertSuccess (env.email s.emails)] }) := by
  simp [generateDummyData, retryLoop, loopBody, hpool, hok, State.emit]

/-- The body of the rate-limited loop when the write succeeds at its first
attempt: one attempt, then the pause. -/
theorem pacedWrite_first_try_eq (env : Env) (fuel : Nat) (s : State) (hd : Handle)
    (hpool : s.dbPool = some hd) (hok : env.exec s.execs = none) :
    pacedWrite env (fuel + 1) s = some (.ok
      { s with emails := s.emails + 1, clockReads := s.clockReads + 1, execs := s.execs + 1,
               trace := s.trace ++ [.exec hd insertStmt [env.email s.emails, "idle"],
                 .logInsertSuccess (env.email s.emails),
                 .sleep (millisDuration (truncate s.delay))] }) := by
  simp [pacedWrite, generateDummyData_first_try env fuel s hd hpool hok, State.emit]

/-- The same, as the facts the loop needs. -/
theorem pacedWrite_first_try (env : Env) (fuel : Nat) (s : State) (hd : Handle)
    (hpool : s.dbPool = some hd) (hok : env.exec s.execs = none) :
    ∃ s1, pacedWrite env (fuel + 1) s = some (.ok s1) ∧ s1.delay = s.delay ∧
      s1.dbPool = some hd ∧
      s1.trace = s.trace ++ [.exec hd insertStmt [env.email s.emails, "idle"],
        .logInsertSuccess (env.email s.emails), .sleep (millisDuration (truncate s.delay))] :=
  ⟨_, pacedWrite_first_try_eq env fuel s hd hpool hok, rfl, hpool, rfl⟩

/-- The rate-limited loop when every write succeeds at its first attempt: it
returns normally after one attempt and one pause per record. -/
theorem forLoop_paced_first_try (env : Env) (fuel : Nat) (hd : Handle)
    (hok : ∀ n, env.exec n = none) (n : Nat) :
    ∀ s : State, s.dbPool = some hd →
      ∃ s1 delta, forLoop (pacedWrite env (fuel + 1)) n s = some (.ok s1) ∧
        s1.trace = s.trace ++ delta ∧ attempts delta = n ∧
        sleeps delta = List.replicate n (millisDuration (truncate s.delay)) := by
  induction n with
  | zero => intro s _; exact ⟨s, [], rfl, by simp, rfl, rfl⟩
  | succ n ih =>
    intro s hpool
    obtain ⟨s1, h1, h2, h3, h4⟩ := pacedWrite_first_try env fuel s hd hpool (hok _)
    obtain ⟨s2, d2, k1, k2, k3, k4⟩ := ih s1 h3
    refine ⟨s2, [.exec hd insertStmt [env.email s.emails, "idle"],
        .logInsertSuccess (env.email s.emails),
        .sleep (millisDuration (truncate s.delay))] ++ d2,
      by simp only [forLoop, h1]; exact k1, by rw [k2, h4, List.append_assoc], ?_, ?_⟩
    · rw [attempts_append, k3]
      simp [attempts, Event.isExec]
      omega
    · rw [sleeps_append, k4, h2]
      simp [sleeps, Event.sleepOf, List.replicate_succ]

/-- What rate-limited mode does when every write succeeds at its first attempt:
it returns normally, with one attempt per record and, as its only sleeps, one
pause of `time.Duration(delay)` milliseconds per record. -/
theorem failoverSimulator_pauses (env : Env) (fuel : Nat) (s : State) (hd : Handle)
    (hpool : s.dbPool = some hd) (hok : ∀ n, env.exec n = none) :
    ∃ s1 delta, failoverSimulator env (fuel + 1) s = some (.ok s1) ∧
      s1.trace = s.trace ++ delta ∧ attempts delta = s.config.TestRun.toNat ∧
      sleeps delta =
        List.replicate s.config.TestRun.toNat (millisDuration (truncate s.delay)) := by
  obtain ⟨s3, d, h1, h2, h3, h4⟩ := forLoop_paced_first_try env fuel hd hok
    s.config.TestRun.toNat
    ({ (s.emit (.logPrintln "==============")).emit
        (.logStartSimulation s.config.RPS) with
        clockReads := s.clockReads + 1 }.emit (.logStartTime (env.now s.clockReads)))
    hpool
  refine ⟨reportEnd env (env.now s.clockReads) s3,
    [.logPrintln "==============", .logStartSimulation s.config.RPS,
      .logStartTime (env.now s.clockReads)] ++ d ++
    [.logEndTime (env.now (s3.clockReads + 1)),
      .logDuration (env.now s3.clockReads - env.now s.clockReads)], ?_, ?_, ?_, ?_⟩
  · have := h1
    simp only [failoverSimulator]
    simp only [emit_config, emit_clockReads] at this ⊢
    rw [this]
  · rw [reportEnd_trace, h2]
    simp
  · rw [attempts_append, attempts_append, h3]
    simp [attempts, Event.isExec]
  · rw [sleeps_append, sleeps_append, h4]
    simp [sleeps, Event.sleepOf]

/-- When the configuration loads and the first connection comes up, `init` ends
in `connectedState`. -/
theorem init_connected (env : Env) (cfg : Config)
    (hcfg : env.configFile = .unmarshalled cfg none) (hconn : env.connect 0 = .ok) :
    init env State.initial = .ok (connectedState cfg) := by
  simp [init, loadConfig, connectDB, hcfg, hconn, State.initial, connectedState, State.emit]

/-- The whole program in rate-limited mode, in a world where the configuration
loads with a rate `R ≥ 1` and a count `M`, the connection comes up and every
write succeeds at its first attempt: `M` attempts, and as the only sleeps `M`
pauses, each of the whole number of milliseconds in `1000 / R`. -/
theorem program_rate_limited_pauses (env : Env) (fuel : Nat) (cfg : Config) (R M : Nat)
    (hcfg : env.configFile = .unmarshalled cfg none) (hconn : env.connect 0 = .ok)
    (hok : ∀ n, env.exec n = none) (hR : cfg.RPS = (R : Int)) (hR1 : 1 ≤ R)
    (hM : cfg.TestRun = (M : Int)) :
    ∃ s1, program env (fuel + 1) 2 = some (.ok s1) ∧ attempts s1.trace = M ∧
      sleeps s1.trace = List.replicate M ((1000 / (R : Int)) * 1000000) ∧
      (sleeps s1.trace).sum = (M : Int) * ((1000 / (R : Int)) * 1000000) := by
  obtain ⟨s1, delta, h1, h2, h3, h4⟩ := failoverSimulator_pauses env fuel
    (((connectedState cfg).emit (.printUsecase 2)).emit (.logPrintln "RDS Failover Simulator"))
    0 rfl hok
  have hprog : program env (fuel + 1) 2 = some (.ok s1) := by
    simp only [program, init_connected env cfg hcfg hconn, main]
    simpa using h1
  have hpause : millisDuration (truncate (1000 / ((R : Int) : ℚ))) =
      (1000 / (R : Int)) * 1000000 := by
    rw [truncate_thousand_div R hR1]
    apply millisDuration_eq
    · exact Int.ediv_nonneg (by norm_num) (by positivity)
    · exact Int.ediv_le_self _ (by norm_num)
  have hn : cfg.TestRun.toNat = M := by rw [hM]; simp
  have hs : sleeps s1.trace = List.replicate M ((1000 / (R : Int)) * 1000000) := by
    rw [h2, sleeps_append, h4]
    simp [sleeps, Event.sleepOf, connectedState, hn, hR]
    exact Or.inr (by simpa using hpause)
  refine ⟨s1, hprog, ?_, hs, ?_⟩
  · rw [h2, attempts_append, h3]
    simp [attempts, Event.isExec, connectedState, hn]
  · rw [hs]
    simp

/-- The pause computed for 2000 records per second. -/
theorem truncate_overdriven : truncate (1000 / 2000) = 0 := by
  norm_num [truncate]
  rfl

/-- C6 at a failing input.  Rate-limited mode, 2 records at 2000 records per
second, every write succeeding at once: `time.Duration(delay)` drops the
fraction of `delay = 0.5`, both pauses are 0, and the pauses add up to less
than `(M - 1) * (1000 / R)` milliseconds (here half a millisecond, in
nanoseconds). -/
theorem failoverSimulator_pause_truncated :
    ∃ s1, program (healthyEnv overdrivenConfig) 1 2 = some (.ok s1) ∧
      attempts s1.trace = 2 ∧ sleeps s1.trace = [0, 0] ∧
      (((sleeps s1.trace).sum : Int) : ℚ) <
        ((overdrivenConfig.TestRun : ℚ) - 1) * (1000 / (overdrivenConfig.RPS : ℚ)) * 1000000 := by
  simp [program, init, loadConfig, connectDB, main, failoverSimulator, forLoop, pacedWrite,
    generateDummyData, retryLoop, loopBody, reportEnd, State.emit, healthyEnv,
    overdrivenConfig, State.initial, sleeps, attempts, Event.isExec, Event.sleepOf,
    truncate_overdriven, millisDuration, wrap64, isGoInt]

/-- C8 as stated fails.  Run with the unknown selector 7: when the database does
not answer, the program opens and pings a connection and is then terminated by
`log.Fatal` before `main` looks at the selector; when the database answers, the
trace still holds the open and the ping of `init`. -/
theorem program_unknown_usecase_still_connects :
    (∃ s, program (unreachableEnv sampleConfig) 0 7 = some (.abort s) ∧
      s.trace = [.logConfig sampleConfig, .sqlOpen "postgres://busy" (some 0), .ping 0,
        .logFatal "dial tcp: connection refused"] ∧
      s.trace.filter Event.isDatabase = [.sqlOpen "postgres://busy" (some 0), .ping 0] ∧
      fatals s.trace = 1 ∧ Event.println "Unknown usecase selected." ∉ s.trace) ∧
    (∃ s, program (healthyEnv sampleConfig) 0 7 = some (.ok s) ∧
      s.trace = [.logConfig sampleConfig, .sqlOpen "postgres://busy" (some 0), .ping 0,
        .println "Successfully connected to the database", .printUsecase 7,
        .println "Unknown usecase selected."] ∧
      s.trace.filter Event.isDatabase = [.sqlOpen "postgres://busy" (some 0), .ping 0]) :=
  ⟨⟨_, rfl, rfl, by decide, by decide, by decide⟩, ⟨_, rfl, rfl, by decide⟩⟩

/-- A `-usecase` value that is not a Go `int`: `flag.Parse()` ends the process
before `main` prints anything. -/
theorem main_rejects_non_int (env : Env) (fuel : Nat) (usecase : Int) (s : State)
    (h : isGoInt usecase = false) :
    main env fuel usecase s = some (.abort (s.emit (.flagExit usecase))) := by
  simp [main, h]

/-- What `init` has done when it returns normally. -/
theorem init_ok {env : Env} {s0 s : State} (h : init env s0 = .ok s) :
    ∃ cfg, env.configFile = .unmarshalled cfg none ∧ env.connect s0.connects = .ok ∧
      s.config = cfg ∧ s.dbPool = some s0.connects ∧ s.execs = s0.execs ∧
      s.connects = s0.connects + 1 ∧
      s.trace = s0.trace ++ [.logConfig cfg, .sqlOpen cfg.DSN (some s0.connects),
        .ping s0.connects, .println "Successfully connected to the database"] := by
  unfold init loadConfig at h
  cases hc : env.configFile with
  | openError e => simp [hc] at h
  | readError e => simp [hc] at h
  | unmarshalled cfg err =>
    cases err with
    | some e => simp [hc] at h
    | none =>
      cases hk : env.connect s0.connects <;> simp [hc, connectDB, hk] at h
      subst h
      exact ⟨cfg, rfl, rfl, rfl, rfl, rfl, rfl, by simp⟩

/-- C8, amended.  For a selector that is a Go `int` (the value `flag.Parse()`
hands to `main`) other than 1, 2 and 99: `main`, from any state, returns
normally, printing the selector and "Unknown usecase selected.", without
touching the connection (no connect, no exec).  The program as a whole runs
`init` first: when `init` terminates the process the program ends there; when
`init` returns, the database actions of the whole run are the one open and the
one ping of `init`. -/
theorem main_unknown_usecase (env : Env) (fuel : Nat) (usecase : Int)
    (hlo : -(2 ^ 63) ≤ usecase) (hhi : usecase < 2 ^ 63)
    (h1 : usecase ≠ 1) (h2 : usecase ≠ 2) (h99 : usecase ≠ 99) :
    (∀ s, ∃ s1, main env fuel usecase s = some (.ok s1) ∧
      s1.trace = s.trace ++ [.printUsecase usecase, .println "Unknown usecase selected."] ∧
      s1.dbPool = s.dbPool ∧ s1.connects = s.connects ∧ s1.execs = s.execs) ∧
    (∀ s, init env State.initial = .abort s → program env fuel usecase = some (.abort s)) ∧
    (∀ s, init env State.initial = .ok s →
      ∃ cfg s1, program env fuel usecase = some (.ok s1) ∧
        s1.trace = [.logConfig cfg, .sqlOpen cfg.DSN (some 0), .ping 0,
          .println "Successfully connected to the database", .printUsecase usecase,
          .println "Unknown usecase selected."] ∧
        s1.trace.filter Event.isDatabase = [.sqlOpen cfg.DSN (some 0), .ping 0] ∧
        fatals s1.trace = 0) := by
  have hmain : ∀ s, main env fuel usecase s =
      some (.ok ((s.emit (.printUsecase usecase)).emit (.println "Unknown usecase selected."))) := by
    intro s
    have hint : isGoInt usecase = true := by
      simp only [isGoInt, Bool.and_eq_true, decide_eq_true_eq]
      exact ⟨hlo, hhi⟩
    simp [main, hint, h1, h2, h99]
  refine ⟨fun s => ⟨_, hmain s, by simp, rfl, rfl, rfl⟩, fun s hs => by simp [program, hs],
    fun s hs => ?_⟩
  obtain ⟨cfg, -, -, -, -, -, -, htr⟩ := init_ok hs
  have htr1 : ((s.emit (.printUsecase usecase)).emit
      (.println "Unknown usecase selected.")).trace =
      [.logConfig cfg, .sqlOpen cfg.DSN (some 0), .ping 0,
        .println "Successfully connected to the database", .printUsecase usecase,
        .println "Unknown usecase selected."] := by simp [htr, State.initial]
  refine ⟨cfg, _, by simp only [program, hs]; exact hmain s, htr1, ?_, ?_⟩
  · rw [htr1]; simp [Event.isDatabase]
  · rw [htr1]; simp [fatals, Event.isFatal]

/-- C8, amended, at selector 7 in a healthy world: the whole run. -/
theorem main_unknown_usecase_witness :
    ∃ cfg s1, program (healthyEnv sampleConfig) 0 7 = some (.ok s1) ∧
      s1.trace = [.logConfig cfg, .sqlOpen cfg.DSN (some 0), .ping 0,
        .println "Successfully connected to the database", .printUsecase 7,
        .println "Unknown usecase selected."] ∧
      s1.trace.filter Event.isDatabase = [.sqlOpen cfg.DSN (some 0), .ping 0] ∧
      fatals s1.trace = 0 :=
  (main_unknown_usecase (healthyEnv sampleConfig) 0 7 (by decide) (by decide) (by decide)
    (by decide) (by decide)).2.2 (connectedState sampleConfig) rfl

/-! ## The two run modes -/

/-- A pass that terminates the process ends with its one fatal action. -/
theorem loopBody_abort_fatal {env : Env} {data : String} {rc : Int} {le : Time}
    {s s1 : State} (h : loopBody env data rc le s = .abort s1) :
    ∃ st e, s1.trace = s.trace ++ st ∧ fatals st = 1 ∧ st.getLast? = some e ∧
      e.isFatal = true := by
  cases hdb : s.dbPool with
  | none =>
    simp [loopBody, hdb] at h
    subst h
    exact ⟨[.nilPanic], .nilPanic, by simp, rfl, rfl, rfl⟩
  | some hd =>
    cases herr : env.exec s.execs with
    | none =>
      by_cases hrc : rc > 1 <;> simp [loopBody, hdb, herr, *] at h
    | some err =>
      by_cases hmax : s.config.MaxRetry ≤ rc
      · rcases eq_or_ne rc 1 with rfl | hrc <;> simp [loopBody, hdb, herr, hmax, *] at h <;>
          subst h <;>
          exact ⟨[.exec hd insertStmt [data, "idle"], .fatalInsert data err],
            .fatalInsert data err, by simp [State.emit], rfl, rfl, rfl⟩
      · by_cases hro : err = readOnlyError
        · cases hc : env.connect s.connects with
          | ok =>
            rcases eq_or_ne rc 1 with rfl | hrc <;>
              simp [loopBody, connectDB, hdb, herr, hmax, hro, hc, *] at h
          | openError e1 =>
            rcases eq_or_ne rc 1 with rfl | hrc <;>
              simp [loopBody, connectDB, hdb, herr, hmax, hro, hc, *] at h <;>
              subst h <;>
              first
              | exact ⟨[.exec hd insertStmt [data, "idle"],
                  .logRetrying data readOnlyError rc s.config.MaxRetry, .close hd,
                  .sqlOpen s.config.DSN none, .logFatal e1], .logFatal e1,
                  by simp [State.emit], rfl, rfl, rfl⟩
              | exact ⟨[.exec hd insertStmt [data, "idle"],
                  .logRetrying data readOnlyError 1 s.config.MaxRetry, .close hd,
                  .sqlOpen s.config.DSN none, .logFatal e1], .logFatal e1,
                  by simp [State.emit], rfl, rfl, rfl⟩
          | pingError e1 =>
            rcases eq_or_ne rc 1 with rfl | hrc <;>
              simp [loopBody, connectDB, hdb, herr, hmax, hro, hc, *] at h <;>
              subst h <;>
              first
              | exact ⟨[.exec hd insertStmt [data, "idle"],
                  .logRetrying data readOnlyError rc s.config.MaxRetry, .close hd,
                  .sqlOpen s.config.DSN (some s.connects), .ping s.connects, .logFatal e1],
                  .logFatal e1, by simp [State.emit], rfl, rfl, rfl⟩
              | exact ⟨[.exec hd insertStmt [data, "idle"],
                  .logRetrying data readOnlyError 1 s.config.MaxRetry, .close hd,
                  .sqlOpen s.config.DSN (some s.connects), .ping s.connects, .logFatal e1],
                  .logFatal e1, by simp [State.emit], rfl, rfl, rfl⟩
        · rcases eq_or_ne rc 1 with rfl | hrc <;>
            simp [loopBody, connectDB, hdb, herr, hmax, hro, *] at h


/-- The fatal actions of one run of the loop: none when it ends normally; when
it terminates the process, exactly one, and it is the last action. -/
theorem retryLoop_fatal {env : Env} {data : String} (fuel : Nat) :
    ∀ (rc : Int) (le : Time) (s : State) (r : Outcome),
      retryLoop env data fuel rc le s = some r →
      ∃ delta, r.state.trace = s.trace ++ delta ∧
        (r.aborted = false → fatals delta = 0) ∧
        (r.aborted = true → fatals delta = 1 ∧
          ∃ e, delta.getLast? = some e ∧ e.isFatal = true) := by
  induction fuel with
  | zero => intro rc le s r h; simp at h
  | succ f ih =>
    intro rc le s r h
    cases hstep : loopBody env data rc le s with
    | next rc1 le1 s1 =>
      rw [retryLoop_next f hstep] at h
      obtain ⟨st, htr1, -, -, -, hf1, -, -, -, -⟩ := loopBody_next_trace hstep
      obtain ⟨d2, htr2, hok, hab⟩ := ih rc1 le1 s1 r h
      refine ⟨st ++ d2, by rw [htr2, htr1, List.append_assoc], fun ha => ?_, fun ha => ?_⟩
      · rw [fatals_append, hf1, hok ha]
      · obtain ⟨a1, e, a2, a3⟩ := hab ha
        have hd2 : d2 ≠ [] := by intro h0; simp [h0] at a2
        exact ⟨by rw [fatals_append, hf1, a1], e,
          by rw [List.getLast?_append_of_ne_nil _ hd2]; exact a2, a3⟩
    | done s1 =>
      rw [retryLoop_done f hstep] at h
      cases h
      obtain ⟨-, -, -, -, -, -, -, -, hd0, -, htr⟩ := loopBody_done hstep
      refine ⟨_, htr, fun _ => ?_, fun ha => by simp [Outcome.aborted] at ha⟩
      by_cases hrc : rc > 1 <;> simp [fatals, Event.isFatal, hrc]
    | abort s1 =>
      rw [retryLoop_abort f hstep] at h
      cases h
      obtain ⟨st, e, htr, hf, hl, he⟩ := loopBody_abort_fatal hstep
      exact ⟨st, htr, fun ha => by simp [Outcome.aborted] at ha, fun _ => ⟨hf, e, hl, he⟩⟩

/-- One logical write, whatever the outside world answers: it returns; when it
returns normally its actions are a completed write of the next record, and when
it terminates the process they are an aborted write of that record. -/
theorem generateDummyData_outcome (env : Env) (fuel : Nat) (s : State)
    (hfuel : (s.config.MaxRetry - 1).toNat < fuel) :
    ∃ r, generateDummyData env fuel s = some r ∧
      (∀ s1, r = .ok s1 → s1.config = s.config ∧ s1.delay = s.delay ∧
        s1.emails = s.emails + 1 ∧
        ∃ seg, s1.trace = s.trace ++ seg ∧ IsWriteOf (env.email s.emails) seg) ∧
      (∀ s1, r = .abort s1 →
        ∃ frag, s1.trace = s.trace ++ frag ∧ IsAbortedWriteOf (env.email s.emails) frag) := by
  obtain ⟨r, hr⟩ := retryLoop_total env (env.email s.emails) fuel 1
    (env.now s.clockReads)
    { s with emails := s.emails + 1, clockReads := s.clockReads + 1 } hfuel
  obtain ⟨hc, hd, hem, delta, htr, hall, -, -, hab, hok⟩ :=
    retryLoop_effect fuel _ _ _ _ le_rfl hr
  obtain ⟨d2, htr2, -, hab2⟩ := retryLoop_fatal fuel _ _ _ _ hr
  have hdd : d2 = delta := List.append_cancel_left (htr2.symm.trans htr)
  subst hdd
  refine ⟨r, hr, fun s1 hs1 => ?_, fun s1 hs1 => ?_⟩
  · subst hs1
    obtain ⟨-, a2, -, a4, a5, -⟩ := hok rfl
    exact ⟨hc, hd, hem, d2, htr, hall, a2, a5, a4⟩
  · subst hs1
    obtain ⟨-, a2⟩ := hab rfl
    obtain ⟨b1, b2⟩ := hab2 rfl
    exact ⟨d2, htr, hall, a2, b1, b2⟩

/-- The body of the rate-limited loop, whatever the outside world answers. -/
theorem pacedWrite_outcome (env : Env) (fuel : Nat) (s : State)
    (hfuel : (s.config.MaxRetry - 1).toNat < fuel) :
    ∃ r, pacedWrite env fuel s = some r ∧
      (∀ s1, r = .ok s1 → s1.config = s.config ∧ s1.delay = s.delay ∧
        s1.emails = s.emails + 1 ∧
        ∃ seg, s1.trace = s.trace ++ seg ∧
          ∃ w, seg = w ++ [.sleep (millisDuration (truncate s.delay))] ∧
            IsWriteOf (env.email s.emails) w) ∧
      (∀ s1, r = .abort s1 →
        ∃ frag, s1.trace = s.trace ++ frag ∧ IsAbortedWriteOf (env.email s.emails) frag) := by
  obtain ⟨r, hr, hok, hab⟩ := generateDummyData_outcome env fuel s hfuel
  cases r with
  | abort s1 =>
    refine ⟨.abort s1, by simp [pacedWrite, hr], fun s2 h => (by cases h), fun s2 h => ?_⟩
    cases h
    exact hab s1 rfl
  | ok s1 =>
    obtain ⟨hc, hd, hem, seg, htr, hw⟩ := hok s1 rfl
    refine ⟨.ok (s1.emit (.sleep (millisDuration (truncate s1.delay)))),
      by simp [pacedWrite, hr], fun s2 h => ?_, fun s2 h => (by cases h)⟩
    cases h
    exact ⟨hc, hd, hem, seg ++ [.sleep (millisDuration (truncate s.delay))],
      by simp [htr, hd], seg, rfl, hw⟩

/-- A counting loop whose body always returns, appending one segment with
property `P` when it returns normally and one fragment with property `Q` when it
terminates the process (both indexed by the record number): the loop returns;
when it returns normally it has appended exactly `n` segments with `P`, one
after another; when it terminates the process it has appended fewer than `n`
such segments and then the fragment of the record that follows them. -/
theorem forLoop_outcome (body : State → Option Outcome) (inv : State → Prop)
    (P Q : Nat → List Event → Prop)
    (hbody : ∀ s, inv s → ∃ r, body s = some r ∧
      (∀ s1, r = .ok s1 → inv s1 ∧ s1.emails = s.emails + 1 ∧
        ∃ seg, s1.trace = s.trace ++ seg ∧ P s.emails seg) ∧
      (∀ s1, r = .abort s1 → ∃ frag, s1.trace = s.trace ++ frag ∧ Q s.emails frag))
    (n : Nat) :
    ∀ s, inv s → ∃ r, forLoop body n s = some r ∧
      (∀ s1, r = .ok s1 → inv s1 ∧ s1.emails = s.emails + n ∧
        ∃ segs : List (List Event), segs.length = n ∧ s1.trace = s.trace ++ segs.flatten ∧
          ∀ i seg, segs[i]? = some seg → P (s.emails + i) seg) ∧
      (∀ s1, r = .abort s1 →
        ∃ (segs : List (List Event)) (frag : List Event), segs.length < n ∧
          s1.trace = s.trace ++ segs.flatten ++ frag ∧
          (∀ i seg, segs[i]? = some seg → P (s.emails + i) seg) ∧
          Q (s.emails + segs.length) frag) := by
  induction n with
  | zero =>
    intro s hs
    refine ⟨.ok s, rfl, fun s1 h => ?_, fun s1 h => (by cases h)⟩
    cases h
    exact ⟨hs, rfl, [], rfl, by simp, by simp⟩
  | succ n ih =>
    intro s hs
    obtain ⟨r, hr, hok, hab⟩ := hbody s hs
    cases r with
    | abort s1 =>
      refine ⟨.abort s1, by simp [forLoop, hr], fun s2 h => (by cases h), fun s2 h => ?_⟩
      cases h
      obtain ⟨frag, htr, hQ⟩ := hab s1 rfl
      exact ⟨[], frag, by simp, by simpa using htr, by simp, by simpa using hQ⟩
    | ok s1 =>
      obtain ⟨hinv, hem, seg, htr, hP⟩ := hok s1 rfl
      obtain ⟨r2, hr2, hok2, hab2⟩ := ih s1 hinv
      have hidx : ∀ (segs : List (List Event)),
          (∀ i sg, segs[i]? = some sg → P (s1.emails + i) sg) →
          ∀ i sg, (seg :: segs)[i]? = some sg → P (s.emails + i) sg := by
        intro segs hall i sg hi
        cases i with
        | zero =>
          simp at hi
          subst hi
          simpa using hP
        | succ i =>
          simp at hi
          have := hall i sg hi
          rwa [hem, Nat.add_assoc, Nat.add_comm 1 i] at this
      refine ⟨r2, by simp [forLoop, hr, hr2], fun s2 h => ?_, fun s2 h => ?_⟩
      · obtain ⟨hinv2, hem2, segs, hlen, htr2, hall⟩ := hok2 s2 h
        exact ⟨hinv2, by omega, seg :: segs, by simp [hlen], by simp [htr2, htr],
          hidx segs hall⟩
      · obtain ⟨segs, frag, hlen, htr2, hall, hQ⟩ := hab2 s2 h
        refine ⟨seg :: segs, frag, by simp; omega, by simp [htr2, htr], hidx segs hall, ?_⟩
        have : s.emails + (seg :: segs).length = s1.emails + segs.length := by
          simp [hem]; omega
        rw [this]
        exact hQ


/-- The burst loop when every write succeeds at its first attempt: it returns
normally after one attempt and one success line per record, without a sleep. -/
theorem forLoop_burst_first_try (env : Env) (fuel : Nat) (hd : Handle)
    (hok : ∀ n, env.exec n = none) (n : Nat) :
    ∀ s : State, s.dbPool = some hd →
      ∃ s1 delta, forLoop (generateDummyData env (fuel + 1)) n s = some (.ok s1) ∧
        s1.trace = s.trace ++ delta ∧ attempts delta = n ∧
        delta.countP Event.isInsertSuccess = n ∧ sleeps delta = [] := by
  induction n with
  | zero => intro s _; exact ⟨s, [], rfl, by simp, rfl, rfl, rfl⟩
  | succ n ih =>
    intro s hpool
    have h1 := generateDummyData_first_try env fuel s hd hpool (hok _)
    obtain ⟨s2, d2, k1, k2, k3, k4, k5⟩ := ih
      { s with emails := s.emails + 1, clockReads := s.clockReads + 1, execs := s.execs + 1,
               trace := s.trace ++ [.exec hd insertStmt [env.email s.emails, "idle"],
                 .logInsertSuccess (env.email s.emails)] } hpool
    refine ⟨s2, [.exec hd insertStmt [env.email s.emails, "idle"],
        .logInsertSuccess (env.email s.emails)] ++ d2,
      by simp only [forLoop, h1]; exact k1, by rw [k2, List.append_assoc], ?_, ?_, ?_⟩
    · rw [attempts_append, k3]
      simp [attempts, Event.isExec]
      omega
    · rw [List.countP_append, k4]
      simp [Event.isInsertSuccess]
      omega
    · rw [sleeps_append, k5]
      simp [sleeps, Event.sleepOf]

/-- What burst mode does when every write succeeds at its first attempt: it
returns normally, with one attempt and one success line per record and no
sleep. -/
theorem dataGenerator_first_try (env : Env) (fuel : Nat) (s : State) (hd : Handle)
    (hpool : s.dbPool = some hd) (hok : ∀ n, env.exec n = none) :
    ∃ s1 delta, dataGenerator env (fuel + 1) s = some (.ok s1) ∧
      s1.trace = s.trace ++ delta ∧ attempts delta = s.config.TestRun.toNat ∧
      delta.countP Event.isInsertSuccess = s.config.TestRun.toNat ∧ sleeps delta = [] := by
  obtain ⟨s3, d, h1, h2, h3, h4, h5⟩ := forLoop_burst_first_try env fuel hd hok
    s.config.TestRun.toNat
    ({ (s.emit (.logPrintln "==============")).emit
        (.logPrintln "Start Dummy Data Generator") with
        clockReads := s.clockReads + 1 }.emit (.logStartTime (env.now s.clockReads)))
    hpool
  refine ⟨reportEnd env (env.now s.clockReads) s3,
    [.logPrintln "==============", .logPrintln "Start Dummy Data Generator",
      .logStartTime (env.now s.clockReads)] ++ d ++
    [.logEndTime (env.now (s3.clockReads + 1)),
      .logDuration (env.now s3.clockReads - env.now s.clockReads)], ?_, ?_, ?_, ?_, ?_⟩
  · have := h1
    simp only [dataGenerator]
    simp only [emit_config, emit_clockReads] at this ⊢
    rw [this]
  · rw [reportEnd_trace, h2]
    simp
  · rw [attempts_append, attempts_append, h3]
    simp [attempts, Event.isExec]
  · rw [List.countP_append, List.countP_append, h4]
    simp [Event.isInsertSuccess]
  · rw [sleeps_append, sleeps_append, h5]
    simp [sleeps, Event.sleepOf]

/-- C9. Burst mode (`dataGenerator`) and rate-limited mode (`failoverSimulator`),
with the step bound large enough for one write, or with a record count `≤ 0`:
both return.  With a count `≤ 0` they return normally, having made no write
attempt and no sleep, and having logged start time, end time and duration.
When every write succeeds at once on an open connection they return normally
after exactly `TestRun` attempts and, in rate-limited mode, `TestRun` pauses.
In general, when they return normally, what they did between the start line and
the end lines is exactly `TestRun` completed logical writes one after another,
the `i`-th being a write of the `i`-th record drawn (in rate-limited mode each
followed by the pause); and when they terminate the process, what they did
after the start line is fewer than `TestRun` completed writes, one after
another, followed by the aborted write of the next record, and nothing more. -/
theorem run_modes_perform_count_writes (env : Env) (s : State) (fuel : Nat)
    (hfuel : s.config.TestRun ≤ 0 ∨ (s.config.MaxRetry - 1).toNat < fuel) :
    (∃ r, dataGenerator env fuel s = some r ∧
      (∀ s1, r = .ok s1 → ∃ (segs : List (List Event)) (c : Nat),
        segs.length = s.config.TestRun.toNat ∧
        s1.trace = s.trace ++ [.logPrintln "==============",
            .logPrintln "Start Dummy Data Generator", .logStartTime (env.now s.clockReads)] ++
          segs.flatten ++
          [.logEndTime (env.now (c + 1)), .logDuration (env.now c - env.now s.clockReads)] ∧
        ∀ i seg, segs[i]? = some seg → IsWriteOf (env.email (s.emails + i)) seg) ∧
      (∀ s1, r = .abort s1 → ∃ (segs : List (List Event)) (frag : List Event),
        segs.length < s.config.TestRun.toNat ∧
        s1.trace = s.trace ++ [.logPrintln "==============",
            .logPrintln "Start Dummy Data Generator", .logStartTime (env.now s.clockReads)] ++
          segs.flatten ++ frag ∧
        (∀ i seg, segs[i]? = some seg → IsWriteOf (env.email (s.emails + i)) seg) ∧
        IsAbortedWriteOf (env.email (s.emails + segs.length)) frag)) ∧
    (∃ r, failoverSimulator env fuel s = some r ∧
      (∀ s1, r = .ok s1 → ∃ (segs : List (List Event)) (c : Nat),
        segs.length = s.config.TestRun.toNat ∧
        s1.trace = s.trace ++ [.logPrintln "==============",
            .logStartSimulation s.config.RPS, .logStartTime (env.now s.clockReads)] ++
          segs.flatten ++
          [.logEndTime (env.now (c + 1)), .logDuration (env.now c - env.now s.clockReads)] ∧
        ∀ i seg, segs[i]? = some seg →
          ∃ w, seg = w ++ [.sleep (millisDuration (truncate s.delay))] ∧
            IsWriteOf (env.email (s.emails + i)) w) ∧
      (∀ s1, r = .abort s1 → ∃ (segs : List (List Event)) (frag : List Event),
        segs.length < s.config.TestRun.toNat ∧
        s1.trace = s.trace ++ [.logPrintln "==============",
            .logStartSimulation s.config.RPS, .logStartTime (env.now s.clockReads)] ++
          segs.flatten ++ frag ∧
        (∀ i seg, segs[i]? = some seg →
          ∃ w, seg = w ++ [.sleep (millisDuration (truncate s.delay))] ∧
            IsWriteOf (env.email (s.emails + i)) w) ∧
        IsAbortedWriteOf (env.email (s.emails + segs.length)) frag)) ∧
    (s.config.TestRun ≤ 0 →
      (∃ s1, dataGenerator env fuel s = some (.ok s1) ∧ s1.execs = s.execs ∧
        s1.trace = s.trace ++ [.logPrintln "==============",
          .logPrintln "Start Dummy Data Generator", .logStartTime (env.now s.clockReads),
          .logEndTime (env.now (s.clockReads + 2)),
          .logDuration (env.now (s.clockReads + 1) - env.now s.clockReads)]) ∧
      (∃ s1, failoverSimulator env fuel s = some (.ok s1) ∧ s1.execs = s.execs ∧
        s1.trace = s.trace ++ [.logPrintln "==============",
          .logStartSimulation s.config.RPS, .logStartTime (env.now s.clockReads),
          .logEndTime (env.now (s.clockReads + 2)),
          .logDuration (env.now (s.clockReads + 1) - env.now s.clockReads)])) ∧
    (∀ hd, s.dbPool = some hd → (∀ n, env.exec n = none) →
      (∃ s1 delta, dataGenerator env fuel s = some (.ok s1) ∧ s1.trace = s.trace ++ delta ∧
        attempts delta = s.config.TestRun.toNat ∧
        delta.countP Event.isInsertSuccess = s.config.TestRun.toNat ∧ sleeps delta = []) ∧
      (∃ s1 delta, failoverSimulator env fuel s = some (.ok s1) ∧
        s1.trace = s.trace ++ delta ∧ attempts delta = s.config.TestRun.toNat ∧
        sleeps delta =
          List.replicate s.config.TestRun.toNat (millisDuration (truncate s.delay)))) := by
  have hzero : s.config.TestRun ≤ 0 →
      (∃ s1, dataGenerator env fuel s = some (.ok s1) ∧ s1.execs = s.execs ∧
        s1.trace = s.trace ++ [.logPrintln "==============",
          .logPrintln "Start Dummy Data Generator", .logStartTime (env.now s.clockReads),
          .logEndTime (env.now (s.clockReads + 2)),
          .logDuration (env.now (s.clockReads + 1) - env.now s.clockReads)]) ∧
      (∃ s1, failoverSimulator env fuel s = some (.ok s1) ∧ s1.execs = s.execs ∧
        s1.trace = s.trace ++ [.logPrintln "==============",
          .logStartSimulation s.config.RPS, .logStartTime (env.now s.clockReads),
          .logEndTime (env.now (s.clockReads + 2)),
          .logDuration (env.now (s.clockReads + 1) - env.now s.clockReads)]) := by
    intro h0
    have hn : s.config.TestRun.toNat = 0 := Int.toNat_of_nonpos h0
    constructor
    · exact ⟨_, by simp [dataGenerator, hn, forLoop]; rfl, by simp [reportEnd],
        by simp [reportEnd, Nat.add_assoc]⟩
    · exact ⟨_, by simp [failoverSimulator, hn, forLoop]; rfl, by simp [reportEnd],
        by simp [reportEnd, Nat.add_assoc]⟩
  refine ⟨?_, ?_, hzero, ?_⟩
  · rcases hfuel with h0 | hf
    · obtain ⟨⟨s1, hrun, -, htr⟩, -⟩ := hzero h0
      refine ⟨_, hrun, fun s2 h => ?_, fun s2 h => (by cases h)⟩
      cases h
      exact ⟨[], s.clockReads + 1, by simp [Int.toNat_of_nonpos h0], by simp [htr], by simp⟩
    · obtain ⟨r, hr, hpok, hpab⟩ := forLoop_outcome (generateDummyData env fuel)
        (fun t => t.config = s.config ∧ t.delay = s.delay)
        (fun i seg => IsWriteOf (env.email i) seg)
        (fun i frag => IsAbortedWriteOf (env.email i) frag)
        (fun t ht => by
          obtain ⟨r, hr, hp, hq⟩ := generateDummyData_outcome env fuel t (by rw [ht.1]; exact hf)
          refine ⟨r, hr, fun t1 h1 => ?_, hq⟩
          obtain ⟨a, b, c, d⟩ := hp t1 h1
          exact ⟨⟨a.trans ht.1, b.trans ht.2⟩, c, d⟩)
        s.config.TestRun.toNat
        ({ (s.emit (.logPrintln "==============")).emit
            (.logPrintln "Start Dummy Data Generator") with
            clockReads := s.clockReads + 1 }.emit (.logStartTime (env.now s.clockReads)))
        ⟨rfl, rfl⟩
      cases r with
      | abort s3 =>
        obtain ⟨segs, frag, hlen, htr, hall, hQ⟩ := hpab s3 rfl
        refine ⟨.abort s3, ?_, fun s2 h => (by cases h), fun s2 h => ?_⟩
        · have := hr
          simp only [dataGenerator]
          simp only [emit_config, emit_clockReads] at this ⊢
          rw [this]
        · cases h
          refine ⟨segs, frag, hlen, ?_, fun i seg hi => by simpa using hall i seg hi,
            by simpa using hQ⟩
          rw [htr]
          simp
      | ok s3 =>
        obtain ⟨-, -, segs, hlen, htr, hall⟩ := hpok s3 rfl
        refine ⟨.ok (reportEnd env (env.now s.clockReads) s3), ?_, fun s2 h => ?_,
          fun s2 h => (by cases h)⟩
        · have := hr
          simp only [dataGenerator]
          simp only [emit_config, emit_clockReads] at this ⊢
          rw [this]
        · cases h
          refine ⟨segs, s3.clockReads, hlen, ?_, fun i seg hi => by simpa using hall i seg hi⟩
          rw [reportEnd_trace, htr]
          simp
  · rcases hfuel with h0 | hf
    · obtain ⟨-, ⟨s1, hrun, -, htr⟩⟩ := hzero h0
      refine ⟨_, hrun, fun s2 h => ?_, fun s2 h => (by cases h)⟩
      cases h
      exact ⟨[], s.clockReads + 1, by simp [Int.toNat_of_nonpos h0], by simp [htr], by simp⟩
    · obtain ⟨r, hr, hpok, hpab⟩ := forLoop_outcome (pacedWrite env fuel)
        (fun t => t.config = s.config ∧ t.delay = s.delay)
        (fun i seg => ∃ w, seg = w ++ [.sleep (millisDuration (truncate s.delay))] ∧
          IsWriteOf (env.email i) w)
        (fun i frag => IsAbortedWriteOf (env.email i) frag)
        (fun t ht => by
          obtain ⟨r, hr, hp, hq⟩ := pacedWrite_outcome env fuel t (by rw [ht.1]; exact hf)
          refine ⟨r, hr, fun t1 h1 => ?_, hq⟩
          obtain ⟨a, b, c, d⟩ := hp t1 h1
          rw [ht.2] at d
          exact ⟨⟨a.trans ht.1, b.trans ht.2⟩, c, d⟩)
        s.config.TestRun.toNat
        ({ (s.emit (.logPrintln "==============")).emit
            (.logStartSimulation s.config.RPS) with
            clockReads := s.clockReads + 1 }.emit (.logStartTime (env.now s.clockReads)))
        ⟨rfl, rfl⟩
      cases r with
      | abort s3 =>
        obtain ⟨segs, frag, hlen, htr, hall, hQ⟩ := hpab s3 rfl
        refine ⟨.abort s3, ?_, fun s2 h => (by cases h), fun s2 h => ?_⟩
        · have := hr
          simp only [failoverSimulator]
          simp only [emit_config, emit_clockReads] at this ⊢
          rw [this]
        · cases h
          refine ⟨segs, frag, hlen, ?_, fun i seg hi => by simpa using hall i seg hi,
            by simpa using hQ⟩
          rw [htr]
          simp
      | ok s3 =>
        obtain ⟨-, -, segs, hlen, htr, hall⟩ := hpok s3 rfl
        refine ⟨.ok (reportEnd env (env.now s.clockReads) s3), ?_, fun s2 h => ?_,
          fun s2 h => (by cases h)⟩
        · have := hr
          simp only [failoverSimulator]
          simp only [emit_config, emit_clockReads] at this ⊢
          rw [this]
        · cases h
          refine ⟨segs, s3.clockReads, hlen, ?_, fun i seg hi => by simpa using hall i seg hi⟩
          rw [reportEnd_trace, htr]
          simp
  · intro hd hpool hok
    rcases hfuel with h0 | hf
    · have hn : s.config.TestRun.toNat = 0 := Int.toNat_of_nonpos h0
      obtain ⟨⟨s1, hrun, -, htr⟩, ⟨s2, hrun2, -, htr2⟩⟩ := hzero h0
      refine ⟨⟨s1, _, hrun, htr, ?_, ?_, ?_⟩, ⟨s2, _, hrun2, htr2, ?_, ?_⟩⟩
      all_goals simp [hn, attempts, sleeps, Event.isExec, Event.isInsertSuccess, Event.sleepOf]
    · obtain ⟨f, rfl⟩ : ∃ f, fuel = f + 1 := ⟨fuel - 1, by omega⟩
      exact ⟨dataGenerator_first_try env f s hd hpool hok,
        failoverSimulator_pauses env f s hd hpool hok⟩

/-- The pause computed for 10 records per second. -/
theorem truncate_sample : truncate (connectedState sampleConfig).delay = 100 := by
  norm_num [truncate, connectedState, sampleConfig]

/-- C9 for a count of 0 in both modes, and for a count of 5 in a healthy world:
burst mode returns normally after 5 attempts, 5 success lines and no sleep,
rate-limited mode after 5 attempts and 5 pauses of 100 ms. -/
theorem run_modes_perform_count_writes_witness :
    ((∃ s1, dataGenerator (healthyEnv emptyRunConfig) 0 (connectedState emptyRunConfig) =
          some (.ok s1) ∧ s1.execs = 0 ∧
        s1.trace = (connectedState emptyRunConfig).trace ++ [.logPrintln "==============",
          .logPrintln "Start Dummy Data Generator", .logStartTime 0,
          .logEndTime 2000000, .logDuration 1000000]) ∧
     (∃ s1, failoverSimulator (healthyEnv emptyRunConfig) 0 (connectedState emptyRunConfig) =
          some (.ok s1) ∧ s1.execs = 0 ∧
        s1.trace = (connectedState emptyRunConfig).trace ++ [.logPrintln "==============",
          .logStartSimulation 10, .logStartTime 0,
          .logEndTime 2000000, .logDuration 1000000])) ∧
    (∃ s1 delta, dataGenerator (healthyEnv sampleConfig) 3 (connectedState sampleConfig) =
        some (.ok s1) ∧ s1.trace = (connectedState sampleConfig).trace ++ delta ∧
      attempts delta = 5 ∧ delta.countP Event.isInsertSuccess = 5 ∧ sleeps delta = []) ∧
    (∃ s1 delta, failoverSimulator (healthyEnv sampleConfig) 3 (connectedState sampleConfig) =
        some (.ok s1) ∧ s1.trace = (connectedState sampleConfig).trace ++ delta ∧
      attempts delta = 5 ∧ sleeps delta = List.replicate 5 100000000) := by
  have h0 := (run_modes_perform_count_writes (healthyEnv emptyRunConfig)
    (connectedState emptyRunConfig) 0 (Or.inl (by decide))).2.2.1 (by decide)
  obtain ⟨hb, s2, d2, k1, k2, k3, k4⟩ :=
    (run_modes_perform_count_writes (healthyEnv sampleConfig)
      (connectedState sampleConfig) 3 (Or.inr (by decide))).2.2.2 0 rfl (fun _ => rfl)
  refine ⟨h0, hb, s2, d2, k1, k2, k3, ?_⟩
  rw [k4, truncate_sample]
  rfl

end BusyRDS
